import Mathlib

/-!
# getrusage: a shallow embedding of `src/getrusage.cpp`

`main` of the program is a straight-line sequence of system calls and writes to
`std::cerr` / `std::clog`.  It is embedded as a pure function of

* the argument vector (`argv[0]` and `argv[1..]`), and
* an `Env` that records what every system call returns in this run,

and it yields the `Run` of the process: the trace of observable events (lines
written, `fork`, `execvp`, `wait`, `getrusage`) and how the process image ends.

Conventions of the embedding:

* C `int`/`long`/`pid_t` values are `Int`; no arithmetic of the program can overflow.
* `double` arithmetic (resident set size, times) is carried out in `ℚ`; the lines
  that print a `double` are kept as structured `MetricLine` values instead of text.
* `i_exec` is declared without an initialiser (line 73); it is `none` until line 85
  assigns it, and reading it while `none` ends the run with `Outcome.undefined`.
* `status` is declared without an initialiser (line 156); `Env.wait.out` is the
  content of that variable after `wait` returned, whatever it is.
* `errno` is the value the failing call left; the successful `gettimeofday` of line 160,
  which runs between `wait` and the test of line 169, is taken to leave it unchanged.
* The argument vector is never empty: `argv[0]` is the program name, `argc ≥ 1`.
-/

namespace Getrusage

/-! ## Constants of the C library -/

/-- The value of `EXIT_SUCCESS` of `<cstdlib>`. -/
def EXIT_SUCCESS : Int := 0

/-- The value of `EXIT_FAILURE` of `<cstdlib>`. -/
def EXIT_FAILURE : Int := 1

/-- The value of `ECHILD` of `<cerrno>` (10 on Linux, FreeBSD and macOS). -/
def ECHILD : Int := 10

/-! ## Data of the system interface -/

/-- The fields of `struct timeval`. -/
structure Timeval where
  tv_sec : Int
  tv_usec : Int
deriving DecidableEq

/-- The fields of `struct rusage` that the program reads. -/
structure Rusage where
  ru_utime : Timeval
  ru_stime : Timeval
  ru_maxrss : Int
  ru_minflt : Int
  ru_majflt : Int
  ru_inblock : Int
  ru_oublock : Int
  ru_nvcsw : Int
  ru_nivcsw : Int
deriving DecidableEq

/-- Which branch of the conditional compilation at lines 229-235 is compiled. -/
inductive Platform where
  | linuxOrFreeBSD
  | apple
  | other
deriving DecidableEq

/-- The wait-status macros of `<sys/wait.h>`, which the program uses and the platform defines. -/
structure WaitMacros where
  WIFEXITED : Int → Bool
  WEXITSTATUS : Int → Int
  WIFSIGNALED : Int → Bool
  WTERMSIG : Int → Int
  WIFSTOPPED : Int → Bool
  WSTOPSIG : Int → Int
  WIFCONTINUED : Int → Bool

/-- What one system call gives back: its return value, the `errno` it leaves when it
fails, and the content of its output argument after the call. -/
structure Call (α : Type) where
  ret : Int
  errno : Int
  out : α

/-- Everything the operating system contributes to one run of `main`, as seen by the
process that runs it: `fork.ret` tells which side of the `fork` the run follows. -/
structure Env where
  /-- The branch of lines 229-235 that was compiled. -/
  platform : Platform
  /-- The wait-status macros of the platform. -/
  macros : WaitMacros
  /-- The function `strerror`. -/
  strerror : Int → String
  /-- The function `strsignal`. -/
  strsignal : Int → String
  /-- The result of `getpid ()` (line 41). -/
  getpid : Int
  /-- The call `gethostname (hostname, ...)` (line 44 or 52); `out` is the buffer. -/
  gethostname : Call String
  /-- The call `gettimeofday (&tstart, NULL)` (line 120). -/
  tstart : Call Timeval
  /-- The call `fork ()` (line 128); `ret` is `child_pid`. -/
  fork : Call Unit
  /-- The call `execvp` (line 144): `none` when it replaces the process image and so does
  not return, `some e` when it returns -1 with `errno` equal to `e`. -/
  execvp_errno : Option Int
  /-- The call `wait (&status)` (line 157); `ret` is `wait_pid`, `out` is `status`. -/
  wait : Call Int
  /-- The call `gettimeofday (&tstop, NULL)` (line 160). -/
  tstop : Call Timeval
  /-- The call `getrusage (RUSAGE_CHILDREN, &ru)` (line 205). -/
  getrusage : Call Rusage

/-! ## Observable behaviour -/

/-- The five metric lines of lines 212-246, with the numbers they print. -/
inductive MetricLine where
  | cs (nvcsw nivcsw : Int)
  | io (inblock oublock : Int)
  | pf (majflt minflt : Int)
  | rss (mbytes : Option ℚ)
  | t (real user sys : ℚ)
deriving DecidableEq

/-- The text that line 214, 219, 224, 231/234 or 244 writes in front of the numbers. -/
def MetricLine.label : MetricLine → String
  | .cs _ _ => "Context switches (voluntary, involuntary):   "
  | .io _ _ => "File system block I/O ops (input, output):   "
  | .pf _ _ => "Page faults (hard (I/O req), soft (no I/O)): "
  | .rss (some _) => "Maximum resident set size (in Mbytes):       "
  | .rss none => ""
  | .t _ _ _ => "Time (real/user/sys in seconds):             "

/-- The events of a run that an observer of the process can see.  A `cerr`, `clog` or
`metric` event is one output statement of the source; the `endl` that closes the
statement is not part of its text. -/
inductive Event where
  | cerr (text : String)
  | clog (text : String)
  | metric (line : MetricLine)
  | fork
  | execvp (file : String) (args : List String)
  | wait
  | getrusage
deriving DecidableEq

/-- How the process image that runs `main` ends. -/
inductive Outcome where
  | exit (code : Int)
  | replaced
  | undefined
deriving DecidableEq

/-- One run of `main`: what was observed, and how it ended. -/
structure Run where
  trace : List Event
  outcome : Outcome
deriving DecidableEq

/-! ## `usage` (lines 23-33) -/

/-- The text `usage` writes to `std::cerr`. -/
def usage (argv0 : String) : String :=
  "Usage :" ++ argv0
    ++ " [-a] [-cs] [-io] [-pf] [-rss] [-t] command [command options and file redirections]\n"
    ++ "   -a: all of the following options:\n"
    ++ "  -cs: context switches\n"
    ++ "  -io: io\n"
    ++ "  -pf: page faults\n"
    ++ " -rss: resident set size\n"
    ++ "   -t: real, user, and system times\n"
    ++ "At least one of the above options must be specified."

/-! ## Option scanning (lines 73-117) -/

/-- The local variables of `main` that the option loop writes. -/
structure Options where
  cs : Bool
  io : Bool
  pf : Bool
  rss : Bool
  t : Bool
  n_options : Nat
  i_exec : Option Nat
deriving DecidableEq

/-- The variables as lines 73-81 leave them. -/
def Options.init : Options :=
  { cs := false, io := false, pf := false, rss := false, t := false,
    n_options := 0, i_exec := none }

/-- The character `argvi[0]` of a `std::string`: its first character, or the
terminating NUL of the empty string. -/
def firstChar (s : String) : Char :=
  match s.data with
  | [] => Char.ofNat 0
  | c :: _ => c

/-- The loop of lines 82-113 from index `i` on, over the arguments `argv[i..]`;
`none` is the `usage` and `exit (EXIT_FAILURE)` of lines 110-111. -/
def scanOptions : Nat → List String → Options → Option Options
  | _, [], o => some o
  | i, argvi :: rest, o =>
    if firstChar argvi ≠ '-' then some { o with i_exec := some i }
    else if argvi = "-a" then
      scanOptions (i + 1) rest
        { o with cs := true, io := true, pf := true, rss := true, t := true,
                 n_options := o.n_options + 1 }
    else if argvi = "-cs" then
      scanOptions (i + 1) rest { o with cs := true, n_options := o.n_options + 1 }
    else if argvi = "-io" then
      scanOptions (i + 1) rest { o with io := true, n_options := o.n_options + 1 }
    else if argvi = "-pf" then
      scanOptions (i + 1) rest { o with pf := true, n_options := o.n_options + 1 }
    else if argvi = "-rss" then
      scanOptions (i + 1) rest { o with rss := true, n_options := o.n_options + 1 }
    else if argvi = "-t" then
      scanOptions (i + 1) rest { o with t := true, n_options := o.n_options + 1 }
    else none

/-! ## The wait-status macros on Linux -/

/-- The conversion `(signed char) x` of an `int`. -/
def toSignedChar (x : Int) : Int :=
  if 128 ≤ x % 256 then x % 256 - 256 else x % 256

/-- The macro `W_EXITCODE (ret, sig)` of glibc, `(ret) << 8 | (sig)`; the shift by
eight bits is the multiplication by 256. -/
def W_EXITCODE (ret sig : Int) : Int := Int.lor (ret * 256) sig

/-- The flag `WCOREFLAG` of glibc. -/
def WCOREFLAG : Int := 0x80

/-- The macros of `<sys/wait.h>` as glibc defines them on Linux (they belong to the
platform, not to the repository):
`WEXITSTATUS (s) = (s & 0xff00) >> 8`, `WTERMSIG (s) = s & 0x7f`,
`WSTOPSIG (s) = WEXITSTATUS (s)`, `WIFEXITED (s) = (WTERMSIG (s) == 0)`,
`WIFSIGNALED (s) = ((signed char) ((s & 0x7f) + 1) >> 1) > 0`,
`WIFSTOPPED (s) = ((s & 0xff) == 0x7f)`, `WIFCONTINUED (s) = (s == 0xffff)`. -/
def linuxWaitMacros : WaitMacros where
  WIFEXITED s := decide (Int.land s 0x7f = 0)
  WEXITSTATUS s := Int.land s 0xff00 >>> 8
  WIFSIGNALED s := decide (0 < toSignedChar (Int.land s 0x7f + 1) >>> 1)
  WTERMSIG s := Int.land s 0x7f
  WIFSTOPPED s := decide (Int.land s 0xff = 0x7f)
  WSTOPSIG s := Int.land s 0xff00 >>> 8
  WIFCONTINUED s := decide (s = 0xffff)

/-! ## The pieces of `main` -/

/-- The string `message_prefix` that lines 60-62 build. -/
def message_prefix (argv0 : String) (pid : Int) (hostname : String) : String :=
  argv0 ++ " (PID " ++ toString pid ++ " on host " ++ hostname ++ "): "

/-- The text that the branch chain of lines 190-199 appends to the status line. -/
def outcomeText (W : WaitMacros) (strsignal : Int → String) (status : Int) : String :=
  if W.WIFEXITED status then
    " exited with status " ++ toString (W.WEXITSTATUS status) ++ "."
  else if W.WIFSIGNALED status then
    " terminated by signal " ++ toString (W.WTERMSIG status)
      ++ " (" ++ strsignal (W.WTERMSIG status) ++ ")."
  else if W.WIFSTOPPED status then
    " stopped by signal " ++ toString (W.WSTOPSIG status)
      ++ " (" ++ strsignal (W.WSTOPSIG status) ++ ")."
  else if W.WIFCONTINUED status then " continued."
  else ": unknown status."

/-- The status report line of lines 181-201. -/
def statusLine (W : WaitMacros) (strsignal : Int → String) (argv0 command : String)
    (child_pid : Int) (hostname : String) (status : Int) : String :=
  argv0 ++ ": " ++ command ++ " (PID " ++ toString child_pid ++ " on host "
    ++ hostname ++ "): " ++ outcomeText W strsignal status

/-- The value `((double) tv.tv_sec) + 1.0e-6 * ((double) tv.tv_usec)`, in exact arithmetic. -/
def seconds (tv : Timeval) : ℚ :=
  (tv.tv_sec : ℚ) + (1 / 1000000 : ℚ) * (tv.tv_usec : ℚ)

/-- The value `real` of lines 239-240, in exact arithmetic. -/
def realTime (tstart tstop : Timeval) : ℚ :=
  seconds tstop - seconds tstart

/-- The number printed by line 231 or 234, when one of the two is compiled. -/
def rssMbytes (p : Platform) (ru_maxrss : Int) : Option ℚ :=
  match p with
  | .linuxOrFreeBSD => some ((ru_maxrss : ℚ) / 1024)
  | .apple => some ((ru_maxrss : ℚ) / (1024 * 1024))
  | .other => none

/-- The metric lines that lines 212-246 write, in the order they are written. -/
def metricLines (p : Platform) (o : Options) (ru : Rusage) (tstart tstop : Timeval) :
    List MetricLine :=
  (if o.cs then [MetricLine.cs ru.ru_nvcsw ru.ru_nivcsw] else [])
    ++ (if o.io then [MetricLine.io ru.ru_inblock ru.ru_oublock] else [])
    ++ (if o.pf then [MetricLine.pf ru.ru_majflt ru.ru_minflt] else [])
    ++ (if o.rss then [MetricLine.rss (rssMbytes p ru.ru_maxrss)] else [])
    ++ (if o.t then
          [MetricLine.t (realTime tstart tstop) (seconds ru.ru_utime) (seconds ru.ru_stime)]
        else [])

/-- The code executed by the child (lines 140-151), after `fork` returned 0. -/
def child (env : Env) (argv : List String) (o : Options) ( message_prefix : String) : Run :=
  match o.i_exec with
  | none => { trace := [], outcome := .undefined }
  | some i_exec =>
    match env.execvp_errno with
    | none =>
      { trace := [.execvp (argv.getD i_exec "") (argv.drop i_exec)], outcome := .replaced }
    | some errno =>
      { trace := [.execvp (argv.getD i_exec "") (argv.drop i_exec),
                  .cerr ( message_prefix ++ "execvp (" ++ argv.getD i_exec "" ++ "): "
                          ++ env.strerror errno ++ ".")],
        outcome := .exit EXIT_FAILURE }

/-- The status report and the usage report (lines 181-250). -/
def report (env : Env) (argv : List String) (o : Options) (child_pid : Int)
    (hostname : String) ( message_prefix : String) : Run :=
  match o.i_exec with
  | none => { trace := [], outcome := .undefined }
  | some i_exec =>
    let line := statusLine env.macros env.strsignal (argv.getD 0 "") (argv.getD i_exec "")
      child_pid hostname env.wait.out
    if env.getrusage.ret = -1 then
      { trace := [.clog line, .getrusage,
                  .cerr ( message_prefix ++ "getrusage: "
                          ++ env.strerror env.getrusage.errno ++ ".")],
        outcome := .exit EXIT_FAILURE }
    else
      { trace := [.clog line, .getrusage]
          ++ (metricLines env.platform o env.getrusage.out env.tstart.out env.tstop.out).map
               Event.metric,
        outcome := .exit EXIT_SUCCESS }

/-- The code executed by the parent (lines 152-248), after `fork` returned the child's id. -/
def parent (env : Env) (argv : List String) (o : Options) (child_pid : Int)
    (hostname : String) ( message_prefix : String) : Run :=
  if o.t = true ∧ env.tstop.ret = -1 then
    { trace := [.wait,
                .cerr ( message_prefix ++ "gettimeofday (tstop): "
                        ++ env.strerror env.tstop.errno ++ ".")],
      outcome := .exit EXIT_FAILURE }
  else if env.wait.ret = -1 then
    if env.wait.errno = ECHILD then
      let r := report env argv o child_pid hostname message_prefix
      { trace := [.wait,
                  .clog ( message_prefix ++ "wait: " ++ env.strerror env.wait.errno ++ ".")]
                 ++ r.trace,
        outcome := r.outcome }
    else
      { trace := [.wait,
                  .cerr ( message_prefix ++ "wait: " ++ env.strerror env.wait.errno ++ ".")],
        outcome := .exit EXIT_FAILURE }
  else
    let r := report env argv o child_pid hostname message_prefix
    { trace := .wait :: r.trace, outcome := r.outcome }

/-- Lines 119-250: the first time stamp, `fork`, and the two sides of it. -/
def launch (env : Env) (argv : List String) (o : Options) (hostname : String)
    ( message_prefix : String) : Run :=
  if o.t = true ∧ env.tstart.ret = -1 then
    { trace := [.cerr ( message_prefix ++ "gettimeofday (tstart): "
                        ++ env.strerror env.tstart.errno ++ ".")],
      outcome := .exit EXIT_FAILURE }
  else
    let child_pid := env.fork.ret
    if child_pid = -1 then
      { trace := [.fork,
                  .cerr ( message_prefix ++ "fork: " ++ env.strerror env.fork.errno ++ ".")],
        outcome := .exit EXIT_FAILURE }
    else if child_pid = 0 then
      let r := child env argv o message_prefix
      { trace := .fork :: r.trace, outcome := r.outcome }
    else
      let r := parent env argv o child_pid hostname message_prefix
      { trace := .fork :: r.trace, outcome := r.outcome }

/-- The function `main` (lines 35-251) on the argument vector `argv0 :: args`
(`argc = args.length + 1`). -/
def main (env : Env) (argv0 : String) (args : List String) : Run :=
  let pid := env.getpid
  if env.gethostname.ret = -1 then
    { trace := [.cerr (argv0 ++ "(PID " ++ toString pid ++ "): " ++ "gethostname: "
                       ++ env.strerror env.gethostname.errno ++ ".")],
      outcome := .exit EXIT_FAILURE }
  else
    let hostname := env.gethostname.out
    if args.length + 1 = 1 then
      { trace := [.cerr (usage argv0)], outcome := .exit EXIT_FAILURE }
    else
      match scanOptions 1 args Options.init with
      | none => { trace := [.cerr (usage argv0)], outcome := .exit EXIT_FAILURE }
      | some o =>
        if o.n_options = 0 then
          { trace := [.cerr (usage argv0)], outcome := .exit EXIT_FAILURE }
        else
          launch env (argv0 :: args) o hostname ( message_prefix argv0 pid hostname)

/-! ## Vocabulary of the statements -/

/-- The six tokens that lines 88-106 compare an argument with. -/
def flagTokens : List String := ["-a", "-cs", "-io", "-pf", "-rss", "-t"]

/-- The arguments in front of the first one that does not begin with `-`: the tokens
that are candidates for options. -/
def optionTokens (args : List String) : List String :=
  args.takeWhile (fun a => decide (firstChar a = '-'))

/-- A metric is requested by `args` when its own token or `-a` is among the option tokens. -/
def requested (tok : String) (args : List String) : Bool :=
  decide ("-a" ∈ optionTokens args ∨ tok ∈ optionTokens args)

/-- The five metrics, named by their tokens, in the order of lines 212-246. -/
def metricOrder : List String := ["-cs", "-io", "-pf", "-rss", "-t"]

/-- The token of the metric that a metric line reports. -/
def MetricLine.token : MetricLine → String
  | .cs _ _ => "-cs"
  | .io _ _ => "-io"
  | .pf _ _ => "-pf"
  | .rss _ => "-rss"
  | .t _ _ _ => "-t"

/-- The metric lines among the events of a trace, in the order they were written. -/
def metricsOf : List Event → List MetricLine
  | [] => []
  | .metric m :: es => m :: metricsOf es
  | _ :: es => metricsOf es

/-- The value of the variables after the loop when every option token is recognised. -/
def scanned (i : Nat) (args : List String) (o : Options) : Options :=
  { cs := o.cs || requested "-cs" args,
    io := o.io || requested "-io" args,
    pf := o.pf || requested "-pf" args,
    rss := o.rss || requested "-rss" args,
    t := o.t || requested "-t" args,
    n_options := o.n_options + (optionTokens args).length,
    i_exec := if (optionTokens args).length < args.length
              then some (i + (optionTokens args).length) else o.i_exec }

/-- The invocation is rejected by lines 66-117: `argc == 1`, or the loop ends in the
`else` of line 109, or it leaves `n_options == 0`. -/
def rejected (args : List String) : Prop :=
  args.length + 1 = 1 ∨ scanOptions 1 args Options.init = none
    ∨ ∃ o, scanOptions 1 args Options.init = some o ∧ o.n_options = 0

/-! ## A concrete environment -/

/-- A run on Linux in which every system call succeeds, seen from the parent: the child
has process id 4712 and exits with status 3 after 1.75 seconds. -/
def sampleEnv : Env :=
  { platform := .linuxOrFreeBSD
    macros := linuxWaitMacros
    strerror := fun e => if e = ECHILD then "No child processes" else "Input/output error"
    strsignal := fun sig => if sig = 9 then "Killed" else "Terminated"
    getpid := 4711
    gethostname := { ret := 0, errno := 0, out := "node1" }
    tstart := { ret := 0, errno := 0, out := { tv_sec := 10, tv_usec := 500000 } }
    fork := { ret := 4712, errno := 0, out := () }
    execvp_errno := none
    wait := { ret := 4712, errno := 0, out := 768 }
    tstop := { ret := 0, errno := 0, out := { tv_sec := 12, tv_usec := 250000 } }
    getrusage :=
      { ret := 0, errno := 0,
        out := { ru_utime := { tv_sec := 1, tv_usec := 0 },
                 ru_stime := { tv_sec := 0, tv_usec := 500000 },
                 ru_maxrss := 2048, ru_minflt := 1, ru_majflt := 2, ru_inblock := 3,
                 ru_oublock := 4, ru_nvcsw := 5, ru_nivcsw := 6 } } }

/-- The same run seen from the child: `fork` returned 0. -/
def sampleChildEnv : Env :=
  { sampleEnv with fork := { ret := 0, errno := 0, out := () } }

/-- The sample run when the child has already been reaped: `wait` fails with `ECHILD`
and leaves `status` as it was, here 0. -/
def sampleNoChildEnv : Env :=
  { sampleEnv with wait := { ret := -1, errno := ECHILD, out := 0 } }

/-- The sample run when `wait` fails with `errno` 4 (`EINTR`). -/
def sampleWaitErrorEnv : Env :=
  { sampleEnv with wait := { ret := -1, errno := 4, out := 0 } }

/-- The environment with another content of `status` after `wait`. -/
def Env.withStatus (env : Env) (status : Int) : Env :=
  { env with wait := { env.wait with out := status } }

/-! ## Lemmas on the option loop -/

theorem optionTokens_cons_dash (a : String) (rest : List String) (h : firstChar a = '-') :
    optionTokens (a :: rest) = a :: optionTokens rest := by
  simp [optionTokens, List.takeWhile_cons, h]

theorem optionTokens_cons_other (a : String) (rest : List String) (h : firstChar a ≠ '-') :
    optionTokens (a :: rest) = [] := by
  simp [optionTokens, List.takeWhile_cons, h]

theorem scanOptions_unrecognised (args : List String) :
    ∀ (i : Nat) (o : Options), (∃ a ∈ optionTokens args, a ∉ flagTokens) →
      scanOptions i args o = none := by
  induction args with
  | nil => intro i o h; simp [optionTokens] at h
  | cons a rest ih =>
    intro i o h
    by_cases hd : firstChar a = '-'
    · rw [optionTokens_cons_dash a rest hd] at h
      by_cases hf : a ∈ flagTokens
      · have hrest : ∃ b ∈ optionTokens rest, b ∉ flagTokens := by
          obtain ⟨b, hb, hbf⟩ := h
          rcases List.mem_cons.mp hb with rfl | hb
          · exact absurd hf hbf
          · exact ⟨b, hb, hbf⟩
        simp only [scanOptions, hd, ne_eq, not_true_eq_false, if_false]
        split_ifs <;> first | exact ih _ _ hrest | rfl
      · simp only [flagTokens, List.mem_cons, List.mem_singleton, List.not_mem_nil,
          or_false, not_or] at hf
        simp [scanOptions, hd, hf]
    · rw [optionTokens_cons_other a rest hd] at h
      simp at h

theorem scanOptions_recognised (args : List String) :
    ∀ (i : Nat) (o : Options), (∀ a ∈ optionTokens args, a ∈ flagTokens) →
      scanOptions i args o = some (scanned i args o) := by
  induction args with
  | nil => intro i o _; simp [scanOptions, scanned, requested, optionTokens]
  | cons a rest ih =>
    intro i o h
    by_cases hd : firstChar a = '-'
    · rw [optionTokens_cons_dash a rest hd] at h
      have hrest : ∀ b ∈ optionTokens rest, b ∈ flagTokens :=
        fun b hb => h b (List.mem_cons_of_mem _ hb)
      have ha : a ∈ flagTokens := h a (List.mem_cons_self _ _)
      simp only [flagTokens, List.mem_cons, List.mem_singleton, List.not_mem_nil,
        or_false] at ha
      rcases ha with rfl | rfl | rfl | rfl | rfl | rfl <;>
        simp [scanOptions, hd, ih _ _ hrest, scanned, requested,
          optionTokens_cons_dash _ _ hd, Nat.add_assoc, Nat.add_comm 1]
    · simp [scanOptions, hd, scanned, requested, optionTokens_cons_other a rest hd]

/-! ## Lemmas on `main` -/

theorem main_hostname_failed (env : Env) (argv0 : String) (args : List String)
    (h : env.gethostname.ret = -1) :
    main env argv0 args =
      { trace := [.cerr (argv0 ++ "(PID " ++ toString env.getpid ++ "): " ++ "gethostname: "
                         ++ env.strerror env.gethostname.errno ++ ".")],
        outcome := .exit EXIT_FAILURE } := by
  simp [main, h]

theorem main_rejected (env : Env) (argv0 : String) (args : List String)
    (hh : env.gethostname.ret ≠ -1) (h : rejected args) :
    main env argv0 args = { trace := [.cerr (usage argv0)], outcome := .exit EXIT_FAILURE } := by
  rcases h with h | h | ⟨o, h, hn⟩
  · simp [main, hh, h]
  · simp [main, hh, h]
  · simp [main, hh, h, hn]

theorem main_accepted (env : Env) (argv0 : String) (args : List String) (o : Options)
    (hh : env.gethostname.ret ≠ -1) (h : scanOptions 1 args Options.init = some o)
    (hn : o.n_options ≠ 0) :
    main env argv0 args =
      launch env (argv0 :: args) o env.gethostname.out
        ( message_prefix argv0 env.getpid env.gethostname.out) := by
  have hne : args ≠ [] := by
    rintro rfl
    simp [scanOptions, Options.init] at h
    exact hn (by rw [← h])
  simp [main, hh, h, hn, hne]

theorem rejected_of_no_flag (args : List String)
    (h : ∀ a ∈ optionTokens args, a ∉ flagTokens) : rejected args := by
  cases args with
  | nil => left; rfl
  | cons a rest =>
    by_cases hd : firstChar a = '-'
    · right; left
      apply scanOptions_unrecognised
      exact ⟨a, by rw [optionTokens_cons_dash a rest hd]; exact List.mem_cons_self _ _,
        h a (by rw [optionTokens_cons_dash a rest hd]; exact List.mem_cons_self _ _)⟩
    · right; right
      exact ⟨_, by simp [scanOptions, hd]; rfl, rfl⟩

theorem optionTokens_append_command (opts : List String) (cmd : String) (rest : List String)
    (hopts : ∀ a ∈ opts, firstChar a = '-') (hcmd : firstChar cmd ≠ '-') :
    optionTokens (opts ++ cmd :: rest) = opts := by
  induction opts with
  | nil => simpa using optionTokens_cons_other cmd rest hcmd
  | cons a as ih =>
    have ha : firstChar a = '-' := hopts a (List.mem_cons_self _ _)
    rw [List.cons_append, optionTokens_cons_dash _ _ ha,
      ih (fun b hb => hopts b (List.mem_cons_of_mem _ hb))]

theorem scanOptions_append_command (opts : List String) (cmd : String) (rest : List String)
    (hopts : ∀ a ∈ opts, firstChar a = '-') (hcmd : firstChar cmd ≠ '-') (i : Nat)
    (o : Options) :
    scanOptions i (opts ++ cmd :: rest) o =
      if ∀ a ∈ opts, a ∈ flagTokens then
        some { cs := o.cs || decide ("-a" ∈ opts ∨ "-cs" ∈ opts),
               io := o.io || decide ("-a" ∈ opts ∨ "-io" ∈ opts),
               pf := o.pf || decide ("-a" ∈ opts ∨ "-pf" ∈ opts),
               rss := o.rss || decide ("-a" ∈ opts ∨ "-rss" ∈ opts),
               t := o.t || decide ("-a" ∈ opts ∨ "-t" ∈ opts),
               n_options := o.n_options + opts.length,
               i_exec := some (i + opts.length) }
      else none := by
  have hot := optionTokens_append_command opts cmd rest hopts hcmd
  by_cases hall : ∀ a ∈ opts, a ∈ flagTokens
  · rw [if_pos hall, scanOptions_recognised _ _ _ (by rw [hot]; exact hall)]
    simp [scanned, requested, hot]
  · rw [if_neg hall]
    apply scanOptions_unrecognised
    rw [hot]
    push_neg at hall
    exact hall

theorem execvp_not_mem_report (env : Env) (argv : List String) (o : Options) (child_pid : Int)
    (hostname : String) (pre : String) (file : String) (a : List String) :
    Event.execvp file a ∉ (report env argv o child_pid hostname pre).trace := by
  unfold report
  cases o.i_exec with
  | none => simp
  | some i => dsimp only; split_ifs <;> simp

theorem execvp_not_mem_parent (env : Env) (argv : List String) (o : Options) (child_pid : Int)
    (hostname : String) (pre : String) (file : String) (a : List String) :
    Event.execvp file a ∉ (parent env argv o child_pid hostname pre).trace := by
  have hr := execvp_not_mem_report env argv o child_pid hostname pre file a
  unfold parent
  split_ifs <;> simp [hr]

theorem execvp_mem_child (env : Env) (argv : List String) (o : Options) (pre : String)
    (file : String) (a : List String) (h : Event.execvp file a ∈ (child env argv o pre).trace) :
    ∃ i, o.i_exec = some i ∧ file = argv.getD i "" ∧ a = argv.drop i := by
  unfold child at h
  cases hi : o.i_exec with
  | none => simp [hi] at h
  | some i =>
    refine ⟨i, rfl, ?_⟩
    cases he : env.execvp_errno <;> simp [hi, he] at h <;> simpa using h

theorem execvp_mem_launch (env : Env) (argv : List String) (o : Options) (hostname : String)
    (pre : String) (file : String) (a : List String)
    (h : Event.execvp file a ∈ (launch env argv o hostname pre).trace) :
    ∃ i, o.i_exec = some i ∧ file = argv.getD i "" ∧ a = argv.drop i := by
  unfold launch at h
  dsimp only at h
  split_ifs at h
  · simp at h
  · simp at h
  · simp only [List.mem_cons, reduceCtorEq, false_or] at h
    exact execvp_mem_child env argv o pre file a h
  · simp only [List.mem_cons, reduceCtorEq, false_or] at h
    exact absurd h (execvp_not_mem_parent env argv o _ hostname pre file a)

theorem execvp_mem_main (env : Env) (argv0 : String) (args : List String) (file : String)
    (a : List String) (h : Event.execvp file a ∈ (main env argv0 args).trace) :
    ∃ o i, scanOptions 1 args Options.init = some o ∧ o.i_exec = some i
      ∧ file = (argv0 :: args).getD i "" ∧ a = (argv0 :: args).drop i := by
  by_cases hh : env.gethostname.ret = -1
  · rw [main_hostname_failed env argv0 args hh] at h
    simp at h
  · by_cases hr : rejected args
    · rw [main_rejected env argv0 args hh hr] at h
      simp at h
    · simp only [rejected, not_or, not_exists, not_and] at hr
      obtain ⟨_, hs, hn⟩ := hr
      cases ho : scanOptions 1 args Options.init with
      | none => exact absurd ho hs
      | some o =>
        rw [main_accepted env argv0 args o hh ho (hn o ho)] at h
        obtain ⟨i, hi, hf, ha⟩ := execvp_mem_launch _ _ _ _ _ _ _ h
        exact ⟨o, i, rfl, hi, hf, ha⟩

theorem metricsOf_map_metric (l : List MetricLine) : metricsOf (l.map Event.metric) = l := by
  induction l with
  | nil => rfl
  | cons m ms ih => simp [metricsOf, ih]

theorem scanOptions_eq_scanned (i : Nat) (args : List String) (o o2 : Options)
    (h : scanOptions i args o = some o2) : o2 = scanned i args o := by
  by_cases hall : ∀ a ∈ optionTokens args, a ∈ flagTokens
  · rw [scanOptions_recognised args i o hall] at h
    exact (Option.some.inj h).symm
  · push_neg at hall
    rw [scanOptions_unrecognised args i o hall] at h
    exact absurd h (by simp)

theorem metricsOf_report (env : Env) (argv : List String) (o : Options) (child_pid : Int)
    (hostname : String) (pre : String)
    (h : (report env argv o child_pid hostname pre).outcome = .exit EXIT_SUCCESS) :
    metricsOf (report env argv o child_pid hostname pre).trace
      = metricLines env.platform o env.getrusage.out env.tstart.out env.tstop.out := by
  unfold report at h ⊢
  cases hi : o.i_exec with
  | none => simp [hi] at h
  | some i =>
    simp only [hi] at h ⊢
    split_ifs at h ⊢
    · simp [EXIT_FAILURE, EXIT_SUCCESS] at h
    · simp [metricsOf, metricsOf_map_metric]

theorem metricsOf_parent (env : Env) (argv : List String) (o : Options) (child_pid : Int)
    (hostname : String) (pre : String)
    (h : (parent env argv o child_pid hostname pre).outcome = .exit EXIT_SUCCESS) :
    metricsOf (parent env argv o child_pid hostname pre).trace
      = metricLines env.platform o env.getrusage.out env.tstart.out env.tstop.out := by
  unfold parent at h ⊢
  split_ifs at h ⊢
  · simp [EXIT_FAILURE, EXIT_SUCCESS] at h
  · simpa [metricsOf] using metricsOf_report env argv o child_pid hostname pre h
  · simp [EXIT_FAILURE, EXIT_SUCCESS] at h
  · simpa [metricsOf] using metricsOf_report env argv o child_pid hostname pre h

theorem child_outcome (env : Env) (argv : List String) (o : Options) (pre : String) :
    (child env argv o pre).outcome ≠ .exit EXIT_SUCCESS := by
  unfold child
  cases o.i_exec with
  | none => simp
  | some i => cases env.execvp_errno <;> simp [EXIT_FAILURE, EXIT_SUCCESS]

theorem metricsOf_launch (env : Env) (argv : List String) (o : Options) (hostname : String)
    (pre : String) (h : (launch env argv o hostname pre).outcome = .exit EXIT_SUCCESS) :
    metricsOf (launch env argv o hostname pre).trace
      = metricLines env.platform o env.getrusage.out env.tstart.out env.tstop.out := by
  unfold launch at h ⊢
  dsimp only at h ⊢
  split_ifs at h ⊢
  · simp [EXIT_FAILURE, EXIT_SUCCESS] at h
  · simp [EXIT_FAILURE, EXIT_SUCCESS] at h
  · exact absurd h (child_outcome env argv o pre)
  · simpa [metricsOf] using metricsOf_parent env argv o _ hostname pre h

theorem metricLines_tokens (p : Platform) (o : Options) (ru : Rusage) (tstart tstop : Timeval) :
    (metricLines p o ru tstart tstop).map MetricLine.token
      = (if o.cs then ["-cs"] else []) ++ (if o.io then ["-io"] else [])
        ++ (if o.pf then ["-pf"] else []) ++ (if o.rss then ["-rss"] else [])
        ++ (if o.t then ["-t"] else []) := by
  unfold metricLines
  cases o.cs <;> cases o.io <;> cases o.pf <;> cases o.rss <;> cases o.t <;> rfl

theorem report_congr (env : Env) (argv argv2 : List String) (o o2 : Options) (child_pid : Int)
    (hostname : String) (pre : String) (hcs : o.cs = o2.cs) (hio : o.io = o2.io)
    (hpf : o.pf = o2.pf) (hrss : o.rss = o2.rss) (ht : o.t = o2.t)
    (h0 : argv.getD 0 "" = argv2.getD 0 "")
    (hi : o.i_exec.map (fun i => (argv.getD i "", argv.drop i))
          = o2.i_exec.map (fun i => (argv2.getD i "", argv2.drop i))) :
    report env argv o child_pid hostname pre = report env argv2 o2 child_pid hostname pre := by
  unfold report metricLines
  cases h1 : o.i_exec with
  | none =>
    cases h2 : o2.i_exec with
    | none => rfl
    | some j => simp [h1, h2] at hi
  | some i =>
    cases h2 : o2.i_exec with
    | none => simp [h1, h2] at hi
    | some j =>
      simp only [h1, h2, Option.map, Option.some.injEq, Prod.mk.injEq] at hi
      obtain ⟨hg, _⟩ := hi
      simp only [hcs, hio, hpf, hrss, ht, h0, hg]

theorem child_congr (env : Env) (argv argv2 : List String) (o o2 : Options) (pre : String)
    (hi : o.i_exec.map (fun i => (argv.getD i "", argv.drop i))
          = o2.i_exec.map (fun i => (argv2.getD i "", argv2.drop i))) :
    child env argv o pre = child env argv2 o2 pre := by
  unfold child
  cases h1 : o.i_exec with
  | none =>
    cases h2 : o2.i_exec with
    | none => rfl
    | some j => simp [h1, h2] at hi
  | some i =>
    cases h2 : o2.i_exec with
    | none => simp [h1, h2] at hi
    | some j =>
      simp only [h1, h2, Option.map, Option.some.injEq, Prod.mk.injEq] at hi
      obtain ⟨hg, hd⟩ := hi
      simp only [hg, hd]

theorem launch_congr (env : Env) (argv argv2 : List String) (o o2 : Options) (hostname : String)
    (pre : String) (hcs : o.cs = o2.cs) (hio : o.io = o2.io) (hpf : o.pf = o2.pf)
    (hrss : o.rss = o2.rss) (ht : o.t = o2.t) (h0 : argv.getD 0 "" = argv2.getD 0 "")
    (hi : o.i_exec.map (fun i => (argv.getD i "", argv.drop i))
          = o2.i_exec.map (fun i => (argv2.getD i "", argv2.drop i))) :
    launch env argv o hostname pre = launch env argv2 o2 hostname pre := by
  unfold launch parent
  dsimp only
  rw [report_congr env argv argv2 o o2 env.fork.ret hostname pre hcs hio hpf hrss ht h0 hi,
    child_congr env argv argv2 o o2 pre hi, ht]

theorem argv_at_command (argv0 : String) (opts : List String) (cmd : String)
    (rest : List String) :
    (argv0 :: (opts ++ cmd :: rest)).getD (opts.length + 1) "" = cmd
      ∧ (argv0 :: (opts ++ cmd :: rest)).drop (opts.length + 1) = cmd :: rest := by
  constructor
  · simp [List.getD_cons_succ, List.getElem_append_right]
  · simp

theorem main_append_command (env : Env) (argv0 : String) (opts : List String) (cmd : String)
    (rest : List String) (hopts : ∀ a ∈ opts, firstChar a = '-') (hcmd : firstChar cmd ≠ '-')
    (hh : env.gethostname.ret ≠ -1) (hall : ∀ a ∈ opts, a ∈ flagTokens) (hne : opts ≠ []) :
    main env argv0 (opts ++ cmd :: rest) =
      launch env (argv0 :: (opts ++ cmd :: rest))
        { cs := decide ("-a" ∈ opts ∨ "-cs" ∈ opts),
          io := decide ("-a" ∈ opts ∨ "-io" ∈ opts),
          pf := decide ("-a" ∈ opts ∨ "-pf" ∈ opts),
          rss := decide ("-a" ∈ opts ∨ "-rss" ∈ opts),
          t := decide ("-a" ∈ opts ∨ "-t" ∈ opts),
          n_options := opts.length,
          i_exec := some (opts.length + 1) }
        env.gethostname.out ( message_prefix argv0 env.getpid env.gethostname.out) := by
  have hs := scanOptions_append_command opts cmd rest hopts hcmd 1 Options.init
  rw [if_pos hall] at hs
  have hlen : opts.length ≠ 0 := fun h => hne (List.length_eq_zero.mp h)
  rw [main_accepted env argv0 _ _ hh hs (by simpa [Options.init] using hlen)]
  simp [Options.init, Nat.add_comm]

theorem main_perm (env : Env) (argv0 : String) (opts opts2 : List String) (cmd : String)
    (rest : List String) (hp : opts.Perm opts2) (hopts : ∀ a ∈ opts, firstChar a = '-')
    (hcmd : firstChar cmd ≠ '-') :
    main env argv0 (opts2 ++ cmd :: rest) = main env argv0 (opts ++ cmd :: rest) := by
  have hmem : ∀ x, x ∈ opts2 ↔ x ∈ opts := fun x => hp.mem_iff.symm
  have hopts2 : ∀ a ∈ opts2, firstChar a = '-' := fun a ha => hopts a ((hmem a).mp ha)
  by_cases hh : env.gethostname.ret = -1
  · rw [main_hostname_failed _ _ _ hh, main_hostname_failed _ _ _ hh]
  · by_cases hall : ∀ a ∈ opts, a ∈ flagTokens
    · have hall2 : ∀ a ∈ opts2, a ∈ flagTokens := fun a ha => hall a ((hmem a).mp ha)
      by_cases hne : opts = []
      · subst hne
        rw [List.Perm.nil_eq hp]
      · have hne2 : opts2 ≠ [] := fun h => hne (by rw [h] at hp; exact List.Perm.eq_nil hp)
        rw [main_append_command env argv0 opts cmd rest hopts hcmd hh hall hne,
          main_append_command env argv0 opts2 cmd rest hopts2 hcmd hh hall2 hne2]
        have h1 := argv_at_command argv0 opts cmd rest
        have h2 := argv_at_command argv0 opts2 cmd rest
        apply launch_congr
        · simp only [hmem]
        · simp only [hmem]
        · simp only [hmem]
        · simp only [hmem]
        · simp only [hmem]
        · rfl
        · simp only [Option.map, h1.1, h1.2, h2.1, h2.2]
    · have hall2 : ¬ ∀ a ∈ opts2, a ∈ flagTokens := fun h => hall (fun a ha => h a ((hmem a).mpr ha))
      have hs := scanOptions_append_command opts cmd rest hopts hcmd 1 Options.init
      have hs2 := scanOptions_append_command opts2 cmd rest hopts2 hcmd 1 Options.init
      rw [if_neg hall] at hs
      rw [if_neg hall2] at hs2
      rw [main_rejected _ _ _ hh (Or.inr (Or.inl hs)), main_rejected _ _ _ hh (Or.inr (Or.inl hs2))]

theorem filter_metricOrder (p : String → Bool) :
    metricOrder.filter p
      = (if p "-cs" then ["-cs"] else []) ++ (if p "-io" then ["-io"] else [])
        ++ (if p "-pf" then ["-pf"] else []) ++ (if p "-rss" then ["-rss"] else [])
        ++ (if p "-t" then ["-t"] else []) := by
  simp only [metricOrder, List.filter]
  cases p "-cs" <;> cases p "-io" <;> cases p "-pf" <;> cases p "-rss" <;> cases p "-t" <;> rfl

theorem main_success (env : Env) (argv0 : String) (args : List String)
    (h : (main env argv0 args).outcome = .exit EXIT_SUCCESS) :
    env.gethostname.ret ≠ -1
      ∧ scanOptions 1 args Options.init = some (scanned 1 args Options.init)
      ∧ (scanned 1 args Options.init).n_options ≠ 0
      ∧ main env argv0 args =
          launch env (argv0 :: args) (scanned 1 args Options.init) env.gethostname.out
            ( message_prefix argv0 env.getpid env.gethostname.out) := by
  have hh : env.gethostname.ret ≠ -1 := by
    intro hh
    rw [main_hostname_failed _ _ _ hh] at h
    simp [EXIT_FAILURE, EXIT_SUCCESS] at h
  have hr : ¬ rejected args := by
    intro hr
    rw [main_rejected _ _ _ hh hr] at h
    simp [EXIT_FAILURE, EXIT_SUCCESS] at h
  simp only [rejected, not_or, not_exists, not_and] at hr
  obtain ⟨_, hs, hn⟩ := hr
  cases ho : scanOptions 1 args Options.init with
  | none => exact absurd ho hs
  | some o =>
    have ho2 := scanOptions_eq_scanned 1 args Options.init o ho
    subst ho2
    exact ⟨hh, rfl, hn _ ho, main_accepted env argv0 args _ hh ho (hn _ ho)⟩

theorem statusLine_mem_report (env : Env) (argv : List String) (o : Options) (child_pid : Int)
    (hostname : String) (pre : String)
    (h : Event.getrusage ∈ (report env argv o child_pid hostname pre).trace) :
    ∃ command, Event.clog (statusLine env.macros env.strsignal (argv.getD 0 "") command
        child_pid hostname env.wait.out) ∈ (report env argv o child_pid hostname pre).trace := by
  unfold report at h ⊢
  cases hi : o.i_exec with
  | none => simp [hi] at h
  | some i =>
    refine ⟨argv.getD i "", ?_⟩
    dsimp only
    split_ifs <;> simp

theorem statusLine_mem_parent (env : Env) (argv : List String) (o : Options) (child_pid : Int)
    (hostname : String) (pre : String)
    (h : Event.getrusage ∈ (parent env argv o child_pid hostname pre).trace) :
    ∃ command, Event.clog (statusLine env.macros env.strsignal (argv.getD 0 "") command
        child_pid hostname env.wait.out) ∈ (parent env argv o child_pid hostname pre).trace := by
  unfold parent at h ⊢
  split_ifs at h ⊢
  · simp at h
  · simp only [List.cons_append, List.nil_append, List.mem_cons, reduceCtorEq, false_or] at h
    obtain ⟨c, hc⟩ := statusLine_mem_report env argv o child_pid hostname pre h
    exact ⟨c, List.mem_append_right _ hc⟩
  · simp at h
  · simp only [List.mem_cons, reduceCtorEq, false_or] at h
    obtain ⟨c, hc⟩ := statusLine_mem_report env argv o child_pid hostname pre h
    exact ⟨c, List.mem_cons_of_mem _ hc⟩

theorem getrusage_not_mem_child (env : Env) (argv : List String) (o : Options) (pre : String) :
    Event.getrusage ∉ (child env argv o pre).trace := by
  unfold child
  cases o.i_exec with
  | none => simp
  | some i => cases env.execvp_errno <;> simp

theorem statusLine_mem_launch (env : Env) (argv : List String) (o : Options)
    (hostname : String) (pre : String)
    (h : Event.getrusage ∈ (launch env argv o hostname pre).trace) :
    ∃ command, Event.clog (statusLine env.macros env.strsignal (argv.getD 0 "") command
        env.fork.ret hostname env.wait.out) ∈ (launch env argv o hostname pre).trace := by
  unfold launch at h ⊢
  dsimp only at h ⊢
  split_ifs at h ⊢
  · simp at h
  · simp at h
  · simp only [List.mem_cons, reduceCtorEq, false_or] at h
    exact absurd h (getrusage_not_mem_child env argv o pre)
  · simp only [List.mem_cons, reduceCtorEq, false_or] at h
    obtain ⟨c, hc⟩ := statusLine_mem_parent env argv o _ hostname pre h
    exact ⟨c, List.mem_cons_of_mem _ hc⟩

theorem statusLine_mem_main (env : Env) (argv0 : String) (args : List String)
    (h : Event.getrusage ∈ (main env argv0 args).trace) :
    ∃ command, Event.clog (statusLine env.macros env.strsignal argv0 command
        env.fork.ret env.gethostname.out env.wait.out) ∈ (main env argv0 args).trace := by
  by_cases hh : env.gethostname.ret = -1
  · rw [main_hostname_failed env argv0 args hh] at h
    simp at h
  · by_cases hr : rejected args
    · rw [main_rejected env argv0 args hh hr] at h
      simp at h
    · simp only [rejected, not_or, not_exists, not_and] at hr
      obtain ⟨_, hs, hn⟩ := hr
      cases ho : scanOptions 1 args Options.init with
      | none => exact absurd ho hs
      | some o =>
        rw [main_accepted env argv0 args o hh ho (hn o ho)] at h ⊢
        exact statusLine_mem_launch _ _ _ _ _ h

theorem linux_exit_status (N : Int) (h0 : 0 ≤ N) (h255 : N ≤ 255) :
    linuxWaitMacros.WIFEXITED (W_EXITCODE N 0) = true
      ∧ linuxWaitMacros.WEXITSTATUS (W_EXITCODE N 0) = N := by
  lift N to ℕ using h0
  have hN : N ≤ 255 := by exact_mod_cast h255
  interval_cases N <;> exact ⟨by decide, by decide⟩

theorem linux_signal_status (S : Int) (h1 : 1 ≤ S) (h126 : S ≤ 126) :
    (linuxWaitMacros.WIFEXITED S = false ∧ linuxWaitMacros.WIFSIGNALED S = true
        ∧ linuxWaitMacros.WTERMSIG S = S)
      ∧ (linuxWaitMacros.WIFEXITED (Int.lor S WCOREFLAG) = false
        ∧ linuxWaitMacros.WIFSIGNALED (Int.lor S WCOREFLAG) = true
        ∧ linuxWaitMacros.WTERMSIG (Int.lor S WCOREFLAG) = S) := by
  lift S to ℕ using (by omega : 0 ≤ S)
  have hS1 : 1 ≤ S := by exact_mod_cast h1
  have hS2 : S ≤ 126 := by exact_mod_cast h126
  interval_cases S <;> exact ⟨⟨by decide, by decide, by decide⟩, by decide, by decide, by decide⟩

theorem report_cases (env : Env) (argv : List String) (o : Options) (child_pid : Int)
    (hostname : String) (pre : String) :
    (o.i_exec = none
        ∧ report env argv o child_pid hostname pre = { trace := [], outcome := .undefined })
      ∨ (∃ i, o.i_exec = some i ∧ env.getrusage.ret = -1
          ∧ report env argv o child_pid hostname pre =
              { trace := [.clog (statusLine env.macros env.strsignal (argv.getD 0 "")
                            (argv.getD i "") child_pid hostname env.wait.out),
                          .getrusage,
                          .cerr (pre ++ "getrusage: " ++ env.strerror env.getrusage.errno
                                 ++ ".")],
                outcome := .exit EXIT_FAILURE })
      ∨ (∃ i, o.i_exec = some i ∧ env.getrusage.ret ≠ -1
          ∧ report env argv o child_pid hostname pre =
              { trace := [.clog (statusLine env.macros env.strsignal (argv.getD 0 "")
                            (argv.getD i "") child_pid hostname env.wait.out),
                          .getrusage]
                  ++ (metricLines env.platform o env.getrusage.out env.tstart.out
                        env.tstop.out).map Event.metric,
                outcome := .exit EXIT_SUCCESS }) := by
  unfold report
  cases hi : o.i_exec with
  | none => exact Or.inl ⟨rfl, rfl⟩
  | some i =>
    by_cases hg : env.getrusage.ret = -1
    · exact Or.inr (Or.inl ⟨i, rfl, hg, by simp only [hg, if_true]⟩)
    · exact Or.inr (Or.inr ⟨i, rfl, hg, by simp only [hg, if_false]⟩)

theorem report_outcome (env : Env) (argv : List String) (o : Options) (child_pid : Int)
    (hostname : String) (pre : String)
    (h : Event.getrusage ∈ (report env argv o child_pid hostname pre).trace) :
    (env.getrusage.ret = -1 →
        (report env argv o child_pid hostname pre).outcome = .exit EXIT_FAILURE)
      ∧ (env.getrusage.ret ≠ -1 →
        (report env argv o child_pid hostname pre).outcome = .exit EXIT_SUCCESS) := by
  rcases report_cases env argv o child_pid hostname pre with
    ⟨_, hr⟩ | ⟨i, _, hg, hr⟩ | ⟨i, _, hg, hr⟩
  · rw [hr] at h
    simp at h
  · rw [hr]
    exact ⟨fun _ => rfl, fun hn => absurd hg hn⟩
  · rw [hr]
    exact ⟨fun hn => absurd hn hg, fun _ => rfl⟩

theorem report_withStatus (env : Env) (argv : List String) (o : Options) (child_pid : Int)
    (hostname : String) (pre : String) (status : Int) :
    (report (env.withStatus status) argv o child_pid hostname pre).outcome
      = (report env argv o child_pid hostname pre).outcome := by
  unfold report Env.withStatus
  cases o.i_exec with
  | none => rfl
  | some i => dsimp only; split_ifs <;> rfl

theorem parent_outcome (env : Env) (argv : List String) (o : Options) (child_pid : Int)
    (hostname : String) (pre : String) :
    (Event.getrusage ∈ (parent env argv o child_pid hostname pre).trace →
        (env.getrusage.ret = -1 →
          (parent env argv o child_pid hostname pre).outcome = .exit EXIT_FAILURE)
        ∧ (env.getrusage.ret ≠ -1 →
          (parent env argv o child_pid hostname pre).outcome = .exit EXIT_SUCCESS))
      ∧ (env.wait.ret = -1 → env.wait.errno ≠ ECHILD →
          (parent env argv o child_pid hostname pre).outcome = .exit EXIT_FAILURE)
      ∧ (∀ status, (parent (env.withStatus status) argv o child_pid hostname pre).outcome
          = (parent env argv o child_pid hostname pre).outcome) := by
  refine ⟨?_, ?_, ?_⟩
  · intro h
    unfold parent at h ⊢
    split_ifs at h ⊢
    · simp at h
    · simp only [List.cons_append, List.nil_append, List.mem_cons, reduceCtorEq, false_or] at h
      exact report_outcome env argv o child_pid hostname pre h
    · simp at h
    · simp only [List.mem_cons, reduceCtorEq, false_or] at h
      exact report_outcome env argv o child_pid hostname pre h
  · intro hw he
    unfold parent
    split_ifs <;> rfl
  · intro status
    have hr := report_withStatus env argv o child_pid hostname pre status
    unfold parent
    have e1 : (env.withStatus status).tstop = env.tstop := rfl
    have e2 : (env.withStatus status).wait.ret = env.wait.ret := rfl
    have e3 : (env.withStatus status).wait.errno = env.wait.errno := rfl
    rw [e1, e2, e3]
    split_ifs <;> first | rfl | exact hr

theorem wait_not_mem_child (env : Env) (argv : List String) (o : Options) (pre : String) :
    Event.wait ∉ (child env argv o pre).trace := by
  unfold child
  cases o.i_exec with
  | none => simp
  | some i => cases env.execvp_errno <;> simp

theorem child_withStatus (env : Env) (argv : List String) (o : Options) (pre : String)
    (status : Int) : child (env.withStatus status) argv o pre = child env argv o pre := rfl

theorem launch_outcome (env : Env) (argv : List String) (o : Options) (hostname : String)
    (pre : String) :
    (Event.getrusage ∈ (launch env argv o hostname pre).trace →
        (env.getrusage.ret = -1 →
          (launch env argv o hostname pre).outcome = .exit EXIT_FAILURE)
        ∧ (env.getrusage.ret ≠ -1 →
          (launch env argv o hostname pre).outcome = .exit EXIT_SUCCESS))
      ∧ (Event.wait ∈ (launch env argv o hostname pre).trace →
          env.wait.ret = -1 → env.wait.errno ≠ ECHILD →
          (launch env argv o hostname pre).outcome = .exit EXIT_FAILURE)
      ∧ (env.fork.ret = -1 → (launch env argv o hostname pre).outcome = .exit EXIT_FAILURE)
      ∧ (∀ status, (launch (env.withStatus status) argv o hostname pre).outcome
          = (launch env argv o hostname pre).outcome) := by
  obtain ⟨hp1, hp2, hp3⟩ := parent_outcome env argv o env.fork.ret hostname pre
  refine ⟨?_, ?_, ?_, ?_⟩
  · intro h
    unfold launch at h ⊢
    dsimp only at h ⊢
    split_ifs at h ⊢
    · simp at h
    · simp at h
    · simp only [List.mem_cons, reduceCtorEq, false_or] at h
      exact absurd h (getrusage_not_mem_child env argv o pre)
    · simp only [List.mem_cons, reduceCtorEq, false_or] at h
      exact hp1 h
  · intro h hw he
    unfold launch at h ⊢
    dsimp only at h ⊢
    split_ifs at h ⊢
    · rfl
    · rfl
    · simp only [List.mem_cons, reduceCtorEq, false_or] at h
      exact absurd h (wait_not_mem_child env argv o pre)
    · exact hp2 hw he
  · intro hf
    unfold launch
    dsimp only
    split_ifs <;> rfl
  · intro status
    unfold launch
    have e1 : (env.withStatus status).tstart = env.tstart := rfl
    have e2 : (env.withStatus status).fork = env.fork := rfl
    rw [e1, e2, child_withStatus]
    dsimp only
    split_ifs <;> first | rfl | exact hp3 status

theorem main_cases (env : Env) (argv0 : String) (args : List String) :
    (env.gethostname.ret = -1
        ∧ (main env argv0 args).outcome = .exit EXIT_FAILURE
        ∧ ∀ e ∈ (main env argv0 args).trace, ∃ text, e = Event.cerr text)
      ∨ (rejected args
        ∧ (main env argv0 args).outcome = .exit EXIT_FAILURE
        ∧ ∀ e ∈ (main env argv0 args).trace, ∃ text, e = Event.cerr text)
      ∨ (∃ o, scanOptions 1 args Options.init = some o ∧ o.n_options ≠ 0
          ∧ env.gethostname.ret ≠ -1
          ∧ main env argv0 args =
              launch env (argv0 :: args) o env.gethostname.out
                ( message_prefix argv0 env.getpid env.gethostname.out)) := by
  by_cases hh : env.gethostname.ret = -1
  · left
    rw [main_hostname_failed env argv0 args hh]
    exact ⟨hh, rfl, by simp⟩
  · by_cases hr : rejected args
    · right; left
      rw [main_rejected env argv0 args hh hr]
      exact ⟨hr, rfl, by simp⟩
    · right; right
      simp only [rejected, not_or, not_exists, not_and] at hr
      obtain ⟨_, hs, hn⟩ := hr
      cases ho : scanOptions 1 args Options.init with
      | none => exact absurd ho hs
      | some o => exact ⟨o, rfl, hn o ho, hh, main_accepted env argv0 args o hh ho (hn o ho)⟩

theorem main_withStatus (env : Env) (argv0 : String) (args : List String) (status : Int) :
    (main (env.withStatus status) argv0 args).outcome = (main env argv0 args).outcome := by
  have e1 : (env.withStatus status).gethostname = env.gethostname := rfl
  have e2 : (env.withStatus status).getpid = env.getpid := rfl
  by_cases hh : env.gethostname.ret = -1
  · rw [main_hostname_failed env argv0 args hh,
      main_hostname_failed _ argv0 args (by rw [e1]; exact hh)]
  · by_cases hr : rejected args
    · rw [main_rejected env argv0 args hh hr,
        main_rejected _ argv0 args (by rw [e1]; exact hh) hr]
    · simp only [rejected, not_or, not_exists, not_and] at hr
      obtain ⟨_, hs, hn⟩ := hr
      cases ho : scanOptions 1 args Options.init with
      | none => exact absurd ho hs
      | some o =>
        rw [main_accepted env argv0 args o hh ho (hn o ho),
          main_accepted _ argv0 args o (by rw [e1]; exact hh) ho (hn o ho), e1, e2]
        exact (launch_outcome env _ o _ _).2.2.2 status

theorem launch_parent (env : Env) (argv : List String) (o : Options) (hostname : String)
    (pre : String) (ht : o.t = true → env.tstart.ret ≠ -1) (hf1 : env.fork.ret ≠ -1)
    (hf0 : env.fork.ret ≠ 0) :
    launch env argv o hostname pre =
      { trace := .fork :: (parent env argv o env.fork.ret hostname pre).trace,
        outcome := (parent env argv o env.fork.ret hostname pre).outcome } := by
  unfold launch
  dsimp only
  rw [if_neg (fun h => ht h.1 h.2), if_neg hf1, if_neg hf0]

theorem parent_wait_failed (env : Env) (argv : List String) (o : Options) (child_pid : Int)
    (hostname : String) (pre : String) (ht : o.t = true → env.tstop.ret ≠ -1)
    (hw : env.wait.ret = -1) :
    (env.wait.errno = ECHILD →
        parent env argv o child_pid hostname pre =
          { trace := [.wait, .clog (pre ++ "wait: " ++ env.strerror ECHILD ++ ".")]
              ++ (report env argv o child_pid hostname pre).trace,
            outcome := (report env argv o child_pid hostname pre).outcome })
      ∧ (env.wait.errno ≠ ECHILD →
        parent env argv o child_pid hostname pre =
          { trace := [.wait, .cerr (pre ++ "wait: " ++ env.strerror env.wait.errno ++ ".")],
            outcome := .exit EXIT_FAILURE }) := by
  constructor
  · intro he
    unfold parent
    rw [if_neg (fun h => ht h.1 h.2), if_pos hw, if_pos he, he]
  · intro he
    unfold parent
    rw [if_neg (fun h => ht h.1 h.2), if_pos hw, if_neg he]

theorem parent_wait_ok (env : Env) (argv : List String) (o : Options) (child_pid : Int)
    (hostname : String) (pre : String) (ht : o.t = true → env.tstop.ret ≠ -1)
    (hw : env.wait.ret ≠ -1) :
    parent env argv o child_pid hostname pre =
      { trace := .wait :: (report env argv o child_pid hostname pre).trace,
        outcome := (report env argv o child_pid hostname pre).outcome } := by
  unfold parent
  rw [if_neg (fun h => ht h.1 h.2), if_neg hw]

theorem report_ok (env : Env) (argv : List String) (o : Options) (child_pid : Int)
    (hostname : String) (pre : String) (i : Nat) (hi : o.i_exec = some i)
    (hg : env.getrusage.ret ≠ -1) :
    report env argv o child_pid hostname pre =
      { trace := [.clog (statusLine env.macros env.strsignal (argv.getD 0 "")
                    (argv.getD i "") child_pid hostname env.wait.out),
                  .getrusage]
          ++ (metricLines env.platform o env.getrusage.out env.tstart.out
                env.tstop.out).map Event.metric,
        outcome := .exit EXIT_SUCCESS } := by
  unfold report
  rw [hi]
  dsimp only
  rw [if_neg hg]

theorem report_failed (env : Env) (argv : List String) (o : Options) (child_pid : Int)
    (hostname : String) (pre : String) (i : Nat) (hi : o.i_exec = some i)
    (hg : env.getrusage.ret = -1) :
    report env argv o child_pid hostname pre =
      { trace := [.clog (statusLine env.macros env.strsignal (argv.getD 0 "")
                    (argv.getD i "") child_pid hostname env.wait.out),
                  .getrusage,
                  .cerr (pre ++ "getrusage: " ++ env.strerror env.getrusage.errno ++ ".")],
        outcome := .exit EXIT_FAILURE } := by
  unfold report
  rw [hi]
  dsimp only
  rw [if_pos hg]

theorem count_wait_metrics (l : List MetricLine) :
    (l.map Event.metric).count Event.wait = 0 := by
  apply List.count_eq_zero.mpr
  simp

theorem scanned_tokens (p : Platform) (args : List String) (ru : Rusage)
    (tstart tstop : Timeval) :
    (metricLines p (scanned 1 args Options.init) ru tstart tstop).map MetricLine.token
      = metricOrder.filter (fun tok => requested tok args) := by
  rw [metricLines_tokens, filter_metricOrder]
  simp [scanned, Options.init]

theorem mem_main_of_mem_report (env : Env) (argv0 : String) (args : List String) (o : Options)
    (hh : env.gethostname.ret ≠ -1) (hs : scanOptions 1 args Options.init = some o)
    (hn : o.n_options ≠ 0) (ht : o.t = true → env.tstart.ret ≠ -1 ∧ env.tstop.ret ≠ -1)
    (hf1 : env.fork.ret ≠ -1) (hf0 : env.fork.ret ≠ 0)
    (hw : env.wait.ret = -1 → env.wait.errno = ECHILD) (e : Event)
    (he : e ∈ (report env (argv0 :: args) o env.fork.ret env.gethostname.out
            ( message_prefix argv0 env.getpid env.gethostname.out)).trace) :
    e ∈ (main env argv0 args).trace := by
  rw [main_accepted env argv0 args o hh hs hn,
    launch_parent env _ o _ _ (fun h => (ht h).1) hf1 hf0]
  by_cases hwr : env.wait.ret = -1
  · rw [(parent_wait_failed env _ o _ _ _ (fun h => (ht h).2) hwr).1 (hw hwr)]
    exact List.mem_cons_of_mem _ (List.mem_append_right _ he)
  · rw [parent_wait_ok env _ o _ _ _ (fun h => (ht h).2) hwr]
    exact List.mem_cons_of_mem _ (List.mem_cons_of_mem _ he)

theorem statusLine_written (env : Env) (argv0 : String) (args : List String) (o : Options)
    (i : Nat) (hh : env.gethostname.ret ≠ -1) (hs : scanOptions 1 args Options.init = some o)
    (hn : o.n_options ≠ 0) (hi : o.i_exec = some i)
    (ht : o.t = true → env.tstart.ret ≠ -1 ∧ env.tstop.ret ≠ -1)
    (hf1 : env.fork.ret ≠ -1) (hf0 : env.fork.ret ≠ 0)
    (hw : env.wait.ret = -1 → env.wait.errno = ECHILD) :
    Event.clog (statusLine env.macros env.strsignal argv0 ((argv0 :: args).getD i "")
        env.fork.ret env.gethostname.out env.wait.out) ∈ (main env argv0 args).trace := by
  apply mem_main_of_mem_report env argv0 args o hh hs hn ht hf1 hf0 hw
  by_cases hg : env.getrusage.ret = -1
  · rw [report_failed env _ o _ _ _ i hi hg]
    exact List.mem_cons_self _ _
  · rw [report_ok env _ o _ _ _ i hi hg]
    exact List.mem_cons_self _ _

theorem mem_metricsOf (m : MetricLine) (l : List Event) :
    m ∈ metricsOf l ↔ Event.metric m ∈ l := by
  induction l with
  | nil => simp [metricsOf]
  | cons e es ih => cases e <;> simp [metricsOf, ih]

theorem metricsOf_main_completed (env : Env) (argv0 : String) (args : List String)
    (o : Options) (i : Nat) (hh : env.gethostname.ret ≠ -1)
    (hs : scanOptions 1 args Options.init = some o) (hn : o.n_options ≠ 0)
    (hi : o.i_exec = some i) (ht : o.t = true → env.tstart.ret ≠ -1 ∧ env.tstop.ret ≠ -1)
    (hf1 : env.fork.ret ≠ -1) (hf0 : env.fork.ret ≠ 0)
    (hw : env.wait.ret = -1 → env.wait.errno = ECHILD) (hg : env.getrusage.ret ≠ -1) :
    metricsOf (main env argv0 args).trace
      = metricLines env.platform o env.getrusage.out env.tstart.out env.tstop.out := by
  rw [main_accepted env argv0 args o hh hs hn,
    launch_parent env _ o _ _ (fun h => (ht h).1) hf1 hf0]
  by_cases hwr : env.wait.ret = -1
  · rw [(parent_wait_failed env _ o _ _ _ (fun h => (ht h).2) hwr).1 (hw hwr),
      report_ok env _ o _ _ _ i hi hg]
    exact metricsOf_map_metric _
  · rw [parent_wait_ok env _ o _ _ _ (fun h => (ht h).2) hwr,
      report_ok env _ o _ _ _ i hi hg]
    exact metricsOf_map_metric _

theorem time_line_of_metricLines (p : Platform) (o : Options) (ru : Rusage)
    (tstart tstop : Timeval) (r u s : ℚ)
    (h : MetricLine.t r u s ∈ metricLines p o ru tstart tstop) :
    o.t = true ∧ r = realTime tstart tstop ∧ u = seconds ru.ru_utime
      ∧ s = seconds ru.ru_stime := by
  unfold metricLines at h
  simp only [List.mem_append] at h
  rcases h with (((h | h) | h) | h) | h
  · split_ifs at h <;> simp at h
  · split_ifs at h <;> simp at h
  · split_ifs at h <;> simp at h
  · split_ifs at h <;> simp at h
  · split_ifs at h with ht
    · simp only [List.mem_singleton, MetricLine.t.injEq] at h
      exact ⟨ht, h.1, h.2.1, h.2.2⟩
    · simp at h

/-! ## The claims -/

/-- C1: when no flag is recognised among the option tokens of the argument list (the
empty list and a list that starts with the command included), `main` ends with
`exit (EXIT_FAILURE)`, a non-zero status, and its trace holds no `fork` and no `execvp`:
no child is created.  What it writes is the usage message and nothing else, once the
host name lookup of lines 41-58, which comes first, has succeeded. -/
theorem no_flag_is_usage_error (env : Env) (argv0 : String) (args : List String)
    (h : ∀ a ∈ optionTokens args, a ∉ flagTokens) :
    (main env argv0 args).outcome = .exit EXIT_FAILURE
      ∧ EXIT_FAILURE ≠ 0
      ∧ Event.fork ∉ (main env argv0 args).trace
      ∧ (∀ file argv, Event.execvp file argv ∉ (main env argv0 args).trace)
      ∧ (env.gethostname.ret ≠ -1 → (main env argv0 args).trace = [.cerr (usage argv0)]) := by
  by_cases hh : env.gethostname.ret = -1
  · rw [main_hostname_failed env argv0 args hh]
    simp [EXIT_FAILURE, hh]
  · rw [main_rejected env argv0 args hh (rejected_of_no_flag args h)]
    simp [EXIT_FAILURE]

/-- Witness of C1: the argument list `sleep 1`, which starts with the command. -/
theorem no_flag_is_usage_error_witness :
    (∀ a ∈ optionTokens ["sleep", "1"], a ∉ flagTokens)
      ∧ (main sampleEnv "getrusage" ["sleep", "1"]).outcome = .exit EXIT_FAILURE
      ∧ EXIT_FAILURE ≠ 0
      ∧ Event.fork ∉ (main sampleEnv "getrusage" ["sleep", "1"]).trace
      ∧ (∀ file argv, Event.execvp file argv ∉ (main sampleEnv "getrusage" ["sleep", "1"]).trace)
      ∧ (sampleEnv.gethostname.ret ≠ -1 →
          (main sampleEnv "getrusage" ["sleep", "1"]).trace = [.cerr (usage "getrusage")]) :=
  ⟨by decide, no_flag_is_usage_error sampleEnv "getrusage" ["sleep", "1"] (by decide)⟩

/-- C2, the code at the argument list `-t`: the loop ends without the `usage` exit, with
one option counted and `i_exec` never assigned, so the invocation is not rejected; in
every environment in which the host name lookup and the first time stamp succeed `main`
calls `fork`; in the sample run the parent calls `fork` and `wait` and then reads
`i_exec` at line 184, the child reads it at line 144, and neither writes the usage
message. -/
theorem flag_without_command_reaches_fork :
    scanOptions 1 ["-t"] Options.init
        = some { cs := false, io := false, pf := false, rss := false, t := true,
                 n_options := 1, i_exec := none }
      ∧ ¬ rejected ["-t"]
      ∧ (∀ env : Env, env.gethostname.ret ≠ -1 → env.tstart.ret ≠ -1 →
          Event.fork ∈ (main env "getrusage" ["-t"]).trace)
      ∧ main sampleEnv "getrusage" ["-t"] = { trace := [.fork, .wait], outcome := .undefined }
      ∧ main sampleChildEnv "getrusage" ["-t"] = { trace := [.fork], outcome := .undefined } := by
  have hs : scanOptions 1 ["-t"] Options.init
      = some { cs := false, io := false, pf := false, rss := false, t := true,
               n_options := 1, i_exec := none } := by decide
  refine ⟨hs, ?_, ?_, by decide, by decide⟩
  · simp [rejected, hs]
  · intro env hh ht
    rw [main_accepted env "getrusage" ["-t"] _ hh hs (by decide)]
    unfold launch
    dsimp only
    rw [if_neg (fun h => ht h.2)]
    split_ifs <;> simp

/-- C3: (1) when some option token (a token in front of the first one that does not begin
with `-`) is not one of the six flags, `main` ends with `exit (EXIT_FAILURE)`, a non-zero
status, without `fork` or `execvp`, whatever flags came before that token, and, the host
name lookup having succeeded, writes the usage message and nothing else; (2) when `cmd`
is the first token that does not begin with `-`, the result of the option loop does not
depend on the tokens `rest` after it, the loop leaves `i_exec` at `cmd`, and every
`execvp` of the run is given `cmd` as file and `cmd :: rest`, unchanged, as arguments. -/
theorem unrecognised_option_is_usage_error (env : Env) (argv0 : String) (args : List String) :
    ((∃ a ∈ optionTokens args, a ∉ flagTokens) →
        (main env argv0 args).outcome = .exit EXIT_FAILURE
          ∧ EXIT_FAILURE ≠ 0
          ∧ Event.fork ∉ (main env argv0 args).trace
          ∧ (∀ file argv, Event.execvp file argv ∉ (main env argv0 args).trace)
          ∧ (env.gethostname.ret ≠ -1 → (main env argv0 args).trace = [.cerr (usage argv0)]))
      ∧ (∀ (opts : List String) (cmd : String) (rest : List String),
          args = opts ++ cmd :: rest → (∀ a ∈ opts, firstChar a = '-') → firstChar cmd ≠ '-' →
            (∀ rest2 : List String,
                scanOptions 1 (opts ++ cmd :: rest2) Options.init
                  = scanOptions 1 args Options.init)
              ∧ (∀ o, scanOptions 1 args Options.init = some o →
                  o.i_exec = some (opts.length + 1))
              ∧ (argv0 :: args).getD (opts.length + 1) "" = cmd
              ∧ (argv0 :: args).drop (opts.length + 1) = cmd :: rest
              ∧ (∀ file argv, Event.execvp file argv ∈ (main env argv0 args).trace →
                  file = cmd ∧ argv = cmd :: rest)) := by
  constructor
  · intro h
    by_cases hh : env.gethostname.ret = -1
    · rw [main_hostname_failed env argv0 args hh]
      simp [EXIT_FAILURE, hh]
    · rw [main_rejected env argv0 args hh (Or.inr (Or.inl (scanOptions_unrecognised _ _ _ h)))]
      simp [EXIT_FAILURE]
  · intro opts cmd rest hargs hopts hcmd
    subst hargs
    have hget : (argv0 :: (opts ++ cmd :: rest)).getD (opts.length + 1) "" = cmd := by
      simp [List.getD_cons_succ, List.getElem_append_right]
    have hdrop : (argv0 :: (opts ++ cmd :: rest)).drop (opts.length + 1) = cmd :: rest := by
      simp
    refine ⟨?_, ?_, hget, hdrop, ?_⟩
    · intro rest2
      rw [scanOptions_append_command opts cmd rest2 hopts hcmd,
        scanOptions_append_command opts cmd rest hopts hcmd]
    · intro o ho
      rw [scanOptions_append_command opts cmd rest hopts hcmd] at ho
      split_ifs at ho
      simp only [Option.some.injEq] at ho
      subst ho
      exact congrArg some (Nat.add_comm 1 opts.length)
    · intro file argv hmem
      obtain ⟨o, i, ho, hi, hf, ha⟩ := execvp_mem_main env argv0 _ file argv hmem
      rw [scanOptions_append_command opts cmd rest hopts hcmd] at ho
      split_ifs at ho
      simp only [Option.some.injEq] at ho
      subst ho
      have hi2 : i = opts.length + 1 := by
        have := Option.some.inj hi
        omega
      subst hi2
      exact ⟨hf.trans hget, ha.trans hdrop⟩

/-- Witness of C3: `-t -x sleep 1` is rejected at `-x` although `-t` came first, and in
`-t sleep -x` the token `-x` after the command reaches `execvp` unchanged. -/
theorem unrecognised_option_is_usage_error_witness :
    (main sampleEnv "getrusage" ["-t", "-x", "sleep", "1"]).trace = [.cerr (usage "getrusage")]
      ∧ (∀ file argv,
          Event.execvp file argv ∈ (main sampleChildEnv "getrusage" ["-t", "sleep", "-x"]).trace →
            file = "sleep" ∧ argv = ["sleep", "-x"])
      ∧ Event.execvp "sleep" ["sleep", "-x"]
          ∈ (main sampleChildEnv "getrusage" ["-t", "sleep", "-x"]).trace :=
  ⟨((unrecognised_option_is_usage_error sampleEnv "getrusage" ["-t", "-x", "sleep", "1"]).1
      ⟨"-x", by decide, by decide⟩).2.2.2.2 (by decide),
   ((unrecognised_option_is_usage_error sampleChildEnv "getrusage" ["-t", "sleep", "-x"]).2
      ["-t"] "sleep" ["-x"] rfl (by decide) (by decide)).2.2.2.2,
   by decide⟩

/-- C4: when `main` returns `EXIT_SUCCESS`, that is, when the invocation was accepted and
the usage report of lines 212-246 was written, the metrics of the metric lines in the
trace, in the order they were written, are the list `-cs, -io, -pf, -rss, -t` filtered
by "requested on the command line": one line for each requested metric, none for any
other, in the fixed order.  Moreover the run does not change when the option tokens in
front of the command are permuted, so the same metric lines come out in the same order. -/
theorem metric_lines_in_fixed_order (env : Env) (argv0 : String) (args : List String)
    (h : (main env argv0 args).outcome = .exit EXIT_SUCCESS) :
    (metricsOf (main env argv0 args).trace).map MetricLine.token
        = metricOrder.filter (fun tok => requested tok args)
      ∧ metricsOf (main env argv0 args).trace
        = metricLines env.platform (scanned 1 args Options.init) env.getrusage.out
            env.tstart.out env.tstop.out
      ∧ (∀ (opts opts2 : List String) (cmd : String) (rest : List String),
          args = opts ++ cmd :: rest → (∀ a ∈ opts, firstChar a = '-') → firstChar cmd ≠ '-' →
          opts.Perm opts2 →
            main env argv0 (opts2 ++ cmd :: rest) = main env argv0 args) := by
  obtain ⟨_, _, _, hm⟩ := main_success env argv0 args h
  have hl : metricsOf (main env argv0 args).trace
      = metricLines env.platform (scanned 1 args Options.init) env.getrusage.out
          env.tstart.out env.tstop.out := by
    rw [hm] at h ⊢
    exact metricsOf_launch _ _ _ _ _ h
  refine ⟨?_, hl, ?_⟩
  · rw [hl, metricLines_tokens, filter_metricOrder]
    simp [scanned, Options.init]
  · intro opts opts2 cmd rest hargs hopts hcmd hp
    subst hargs
    exact main_perm env argv0 opts opts2 cmd rest hp hopts hcmd

/-- Witness of C4: `-t -cs sleep 1` reports context switches before time, as does its
permutation `-cs -t sleep 1`. -/
theorem metric_lines_in_fixed_order_witness :
    (metricsOf (main sampleEnv "getrusage" ["-t", "-cs", "sleep", "1"]).trace).map
        MetricLine.token = ["-cs", "-t"]
      ∧ main sampleEnv "getrusage" ["-cs", "-t", "sleep", "1"]
        = main sampleEnv "getrusage" ["-t", "-cs", "sleep", "1"] :=
  ⟨(metric_lines_in_fixed_order sampleEnv "getrusage" ["-t", "-cs", "sleep", "1"]
      (by decide)).1.trans (by decide),
   (metric_lines_in_fixed_order sampleEnv "getrusage" ["-t", "-cs", "sleep", "1"]
      (by decide)).2.2 ["-t", "-cs"] ["-cs", "-t"] "sleep" ["1"] rfl (by decide) (by decide)
      (List.Perm.swap "-cs" "-t" [])⟩

/-- C6: for every exit code `N` with `0 ≤ N ≤ 255`, on the wait status of a normal exit
with code `N` (`W_EXITCODE (N, 0)` on Linux) the first test of the branch chain,
`WIFEXITED`, holds, and the text appended to the status report line is exactly
` exited with status N.`, hence none of the other four texts; the same holds for any
definition of the macros under which the status is an exit with code `N`; and every run
of `main` that gets as far as `getrusage` with this status has written the status report
line ending in that text. -/
theorem exited_status_is_reported (N : Int) (h0 : 0 ≤ N) (h255 : N ≤ 255) :
    linuxWaitMacros.WIFEXITED (W_EXITCODE N 0) = true
      ∧ (∀ strsignal : Int → String,
          outcomeText linuxWaitMacros strsignal (W_EXITCODE N 0)
            = " exited with status " ++ toString N ++ ".")
      ∧ (∀ (W : WaitMacros) (strsignal : Int → String) (status : Int),
          W.WIFEXITED status = true → W.WEXITSTATUS status = N →
            outcomeText W strsignal status = " exited with status " ++ toString N ++ ".")
      ∧ (∀ (env : Env) (argv0 : String) (args : List String),
          env.macros = linuxWaitMacros → env.wait.out = W_EXITCODE N 0 →
          Event.getrusage ∈ (main env argv0 args).trace →
            ∃ command,
              Event.clog (argv0 ++ ": " ++ command ++ " (PID " ++ toString env.fork.ret
                  ++ " on host " ++ env.gethostname.out ++ "): "
                  ++ (" exited with status " ++ toString N ++ "."))
                ∈ (main env argv0 args).trace) := by
  obtain ⟨hif, hex⟩ := linux_exit_status N h0 h255
  have hgen : ∀ (W : WaitMacros) (strsignal : Int → String) (status : Int),
      W.WIFEXITED status = true → W.WEXITSTATUS status = N →
        outcomeText W strsignal status = " exited with status " ++ toString N ++ "." := by
    intro W strsignal status h1 h2
    simp only [outcomeText, h1, h2, if_true]
  refine ⟨hif, fun strsignal => hgen _ strsignal _ hif hex, hgen, ?_⟩
  intro env argv0 args hmac hst hmem
  obtain ⟨c, hc⟩ := statusLine_mem_main env argv0 args hmem
  refine ⟨c, ?_⟩
  rw [statusLine, hmac, hst, hgen _ env.strsignal _ hif hex] at hc
  exact hc

/-- Witness of C6: a child that exits with code 3. -/
theorem exited_status_is_reported_witness :
    (0 : Int) ≤ 3 ∧ (3 : Int) ≤ 255
      ∧ outcomeText linuxWaitMacros sampleEnv.strsignal (W_EXITCODE 3 0)
          = " exited with status 3."
      ∧ Event.clog "getrusage: sleep (PID 4712 on host node1):  exited with status 3."
          ∈ (main sampleEnv "getrusage" ["-t", "sleep", "1"]).trace :=
  ⟨by decide, by decide,
   ((exited_status_is_reported 3 (by decide) (by decide)).2.1 sampleEnv.strsignal).trans
     (by decide),
   by decide⟩

/-- C7: for every signal number `S` (positive, and at most 126, the largest value the
seven signal bits of a status can hold besides the stop mark; the signals of Linux are
1 to 64), on the wait status of a termination by `S`, with or without the core-dump
bit, `WIFEXITED` fails and `WIFSIGNALED` holds, and the text appended to the status
report line is exactly ` terminated by signal S (strsignal (S)).`; the same holds for
any definition of the macros under which the status is a termination by `S`.  In the run
of `main`: when the host lookup, the time stamps and `fork` (in the parent) succeed, the
invocation is accepted with a command at `argv[i]`, and `wait` leaves this status, the
parent writes to `std::clog` the status report line
`argv0: argv[i] (PID child_pid on host hostname):  terminated by signal S (strsignal (S)).`,
whatever `getrusage` does afterwards; and every run that gets as far as `getrusage` with
this status has written a status report line ending in that text. -/
theorem signaled_status_is_reported (S : Int) (h1 : 1 ≤ S) (h126 : S ≤ 126) :
    (∀ status : Int, status = S ∨ status = Int.lor S WCOREFLAG →
        linuxWaitMacros.WIFEXITED status = false
          ∧ linuxWaitMacros.WIFSIGNALED status = true
          ∧ ∀ strsignal : Int → String,
              outcomeText linuxWaitMacros strsignal status
                = " terminated by signal " ++ toString S ++ " (" ++ strsignal S ++ ").")
      ∧ (∀ (W : WaitMacros) (strsignal : Int → String) (status : Int),
          W.WIFEXITED status = false → W.WIFSIGNALED status = true → W.WTERMSIG status = S →
            outcomeText W strsignal status
              = " terminated by signal " ++ toString S ++ " (" ++ strsignal S ++ ").")
      ∧ (∀ (env : Env) (argv0 : String) (args : List String),
          env.macros = linuxWaitMacros →
          env.wait.out = S ∨ env.wait.out = Int.lor S WCOREFLAG →
          Event.getrusage ∈ (main env argv0 args).trace →
            ∃ command,
              Event.clog (argv0 ++ ": " ++ command ++ " (PID " ++ toString env.fork.ret
                  ++ " on host " ++ env.gethostname.out ++ "): "
                  ++ (" terminated by signal " ++ toString S ++ " (" ++ env.strsignal S
                      ++ ")."))
                ∈ (main env argv0 args).trace)
      ∧ (∀ (env : Env) (argv0 : String) (args : List String) (o : Options) (i : Nat),
          env.macros = linuxWaitMacros →
          env.wait.out = S ∨ env.wait.out = Int.lor S WCOREFLAG →
          env.gethostname.ret ≠ -1 → scanOptions 1 args Options.init = some o →
          o.n_options ≠ 0 → o.i_exec = some i →
          (o.t = true → env.tstart.ret ≠ -1 ∧ env.tstop.ret ≠ -1) →
          env.fork.ret ≠ -1 → env.fork.ret ≠ 0 →
          (env.wait.ret = -1 → env.wait.errno = ECHILD) →
            Event.clog (argv0 ++ ": " ++ (argv0 :: args).getD i "" ++ " (PID "
                ++ toString env.fork.ret ++ " on host " ++ env.gethostname.out ++ "): "
                ++ (" terminated by signal " ++ toString S ++ " (" ++ env.strsignal S
                    ++ ")."))
              ∈ (main env argv0 args).trace) := by
  obtain ⟨hplain, hcore⟩ := linux_signal_status S h1 h126
  have hgen : ∀ (W : WaitMacros) (strsignal : Int → String) (status : Int),
      W.WIFEXITED status = false → W.WIFSIGNALED status = true → W.WTERMSIG status = S →
        outcomeText W strsignal status
          = " terminated by signal " ++ toString S ++ " (" ++ strsignal S ++ ")." := by
    intro W strsignal status h1 h2 h3
    simp [outcomeText, h1, h2, h3]
  have hlinux : ∀ status : Int, status = S ∨ status = Int.lor S WCOREFLAG →
      linuxWaitMacros.WIFEXITED status = false
        ∧ linuxWaitMacros.WIFSIGNALED status = true
        ∧ linuxWaitMacros.WTERMSIG status = S := by
    intro status hs
    rcases hs with rfl | rfl
    · exact hplain
    · exact hcore
  refine ⟨?_, hgen, ?_, ?_⟩
  · intro status hs
    obtain ⟨ha, hb, hc⟩ := hlinux status hs
    exact ⟨ha, hb, fun strsignal => hgen _ strsignal _ ha hb hc⟩
  · intro env argv0 args hmac hst hmem
    obtain ⟨ha, hb, hc⟩ := hlinux _ hst
    obtain ⟨c, hcm⟩ := statusLine_mem_main env argv0 args hmem
    refine ⟨c, ?_⟩
    rw [statusLine, hmac, hgen _ env.strsignal _ ha hb hc] at hcm
    exact hcm
  · intro env argv0 args o i hmac hst hh hs hn hi ht hf1 hf0 hw
    obtain ⟨ha, hb, hc⟩ := hlinux _ hst
    have hcm := statusLine_written env argv0 args o i hh hs hn hi ht hf1 hf0 hw
    rw [statusLine, hmac, hgen _ env.strsignal _ ha hb hc] at hcm
    exact hcm

/-- Witness of C7: a child killed by signal 9, without and with a core dump; in the
sample run of `-cs sleep 1` with that status the parent writes the status report line
`getrusage: sleep (PID 4712 on host node1):  terminated by signal 9 (Killed).` -/
theorem signaled_status_is_reported_witness :
    (1 : Int) ≤ 9 ∧ (9 : Int) ≤ 126
      ∧ outcomeText linuxWaitMacros sampleEnv.strsignal 9 = " terminated by signal 9 (Killed)."
      ∧ outcomeText linuxWaitMacros sampleEnv.strsignal (Int.lor 9 WCOREFLAG)
          = " terminated by signal 9 (Killed)."
      ∧ Event.clog "getrusage: sleep (PID 4712 on host node1):  terminated by signal 9 (Killed)."
          ∈ (main (sampleEnv.withStatus 9) "getrusage" ["-cs", "sleep", "1"]).trace
      ∧ main (sampleEnv.withStatus 9) "getrusage" ["-cs", "sleep", "1"] =
          { trace :=
              [.fork, .wait,
               .clog "getrusage: sleep (PID 4712 on host node1):  terminated by signal 9 (Killed).",
               .getrusage, .metric (.cs 5 6)],
            outcome := .exit EXIT_SUCCESS } :=
  ⟨by decide, by decide,
   (((signaled_status_is_reported 9 (by decide) (by decide)).1 9 (Or.inl rfl)).2.2
      sampleEnv.strsignal).trans (by decide),
   (((signaled_status_is_reported 9 (by decide) (by decide)).1 (Int.lor 9 WCOREFLAG)
      (Or.inr rfl)).2.2 sampleEnv.strsignal).trans (by decide),
   (signaled_status_is_reported 9 (by decide) (by decide)).2.2.2
      (sampleEnv.withStatus 9) "getrusage" ["-cs", "sleep", "1"]
      { cs := true, io := false, pf := false, rss := false, t := false,
        n_options := 1, i_exec := some 2 }
      2 rfl (Or.inl rfl) (by decide) (by decide) (by decide) rfl (by decide) (by decide)
      (by decide) (by decide),
   by decide⟩

/-- C8: `main` returns `EXIT_SUCCESS`, which is 0, whenever the reporting flow completes:
whenever `getrusage` is called and succeeds, which is what happens when the host lookup,
the time stamps, `fork` (in the parent) and `getrusage` succeed, `wait` succeeds or
fails with `ECHILD`, and a command is present.  The outcome of `main` does not depend on
the wait status of the child at all.  And `main` ends with `exit (EXIT_FAILURE)`, which
is not 0, when the invocation is rejected with the usage message, when `fork` returns
-1, when `wait` is called and fails with an `errno` other than `ECHILD`, and when
`getrusage` is called and fails. -/
theorem parent_exit_code (env : Env) (argv0 : String) (args : List String) :
    EXIT_SUCCESS = 0 ∧ EXIT_FAILURE ≠ 0
      ∧ (Event.getrusage ∈ (main env argv0 args).trace → env.getrusage.ret ≠ -1 →
          (main env argv0 args).outcome = .exit EXIT_SUCCESS)
      ∧ (∀ o i, env.gethostname.ret ≠ -1 → scanOptions 1 args Options.init = some o →
          o.n_options ≠ 0 → o.i_exec = some i →
          (o.t = true → env.tstart.ret ≠ -1 ∧ env.tstop.ret ≠ -1) →
          env.fork.ret ≠ -1 → env.fork.ret ≠ 0 →
          (env.wait.ret = -1 → env.wait.errno = ECHILD) → env.getrusage.ret ≠ -1 →
            Event.getrusage ∈ (main env argv0 args).trace
              ∧ (main env argv0 args).outcome = .exit EXIT_SUCCESS)
      ∧ (∀ status, (main (env.withStatus status) argv0 args).outcome
          = (main env argv0 args).outcome)
      ∧ (rejected args → (main env argv0 args).outcome = .exit EXIT_FAILURE)
      ∧ (env.fork.ret = -1 → (main env argv0 args).outcome = .exit EXIT_FAILURE)
      ∧ (Event.wait ∈ (main env argv0 args).trace → env.wait.ret = -1 →
          env.wait.errno ≠ ECHILD → (main env argv0 args).outcome = .exit EXIT_FAILURE)
      ∧ (Event.getrusage ∈ (main env argv0 args).trace → env.getrusage.ret = -1 →
          (main env argv0 args).outcome = .exit EXIT_FAILURE) := by
  refine ⟨rfl, by decide, ?_, ?_, main_withStatus env argv0 args, ?_, ?_, ?_, ?_⟩
  · intro hmem hg
    rcases main_cases env argv0 args with ⟨_, _, hc⟩ | ⟨_, _, hc⟩ | ⟨o, _, _, _, hm⟩
    · obtain ⟨_, ht⟩ := hc _ hmem
      exact absurd ht (by simp)
    · obtain ⟨_, ht⟩ := hc _ hmem
      exact absurd ht (by simp)
    · rw [hm] at hmem ⊢
      exact ((launch_outcome env _ o _ _).1 hmem).2 hg
  · intro o i hh hs hn hi ht hf1 hf0 hw hg
    rw [main_accepted env argv0 args o hh hs hn,
      launch_parent env _ o _ _ (fun h => (ht h).1) hf1 hf0]
    by_cases hwr : env.wait.ret = -1
    · rw [(parent_wait_failed env _ o _ _ _ (fun h => (ht h).2) hwr).1 (hw hwr),
        report_ok env _ o _ _ _ i hi hg]
      exact ⟨by simp, rfl⟩
    · rw [parent_wait_ok env _ o _ _ _ (fun h => (ht h).2) hwr,
        report_ok env _ o _ _ _ i hi hg]
      exact ⟨by simp, rfl⟩
  · intro hr
    rcases main_cases env argv0 args with ⟨_, ho, _⟩ | ⟨_, ho, _⟩ | ⟨o, hs, hn, _, _⟩
    · exact ho
    · exact ho
    · rcases hr with hr | hr | ⟨o2, hr, hn2⟩
      · have : args = [] := List.length_eq_zero.mp (by omega)
        subst this
        simp [scanOptions, Options.init] at hs
        exact absurd (by rw [← hs]) hn
      · rw [hr] at hs
        exact absurd hs (by simp)
      · rw [hr] at hs
        have := Option.some.inj hs
        subst this
        exact absurd hn2 hn
  · intro hf
    rcases main_cases env argv0 args with ⟨_, ho, _⟩ | ⟨_, ho, _⟩ | ⟨o, _, _, _, hm⟩
    · exact ho
    · exact ho
    · rw [hm]
      exact (launch_outcome env _ o _ _).2.2.1 hf
  · intro hmem hw he
    rcases main_cases env argv0 args with ⟨_, ho, _⟩ | ⟨_, ho, _⟩ | ⟨o, _, _, _, hm⟩
    · exact ho
    · exact ho
    · rw [hm] at hmem ⊢
      exact (launch_outcome env _ o _ _).2.1 hmem hw he
  · intro hmem hg
    rcases main_cases env argv0 args with ⟨_, ho, _⟩ | ⟨_, ho, _⟩ | ⟨o, _, _, _, hm⟩
    · exact ho
    · exact ho
    · rw [hm] at hmem ⊢
      exact ((launch_outcome env _ o _ _).1 hmem).1 hg

/-- Witness of C8: the sample run returns 0 whether the child exits with status 3 or is
killed by signal 9, and the rejected argument list `sleep 1` ends with a failure. -/
theorem parent_exit_code_witness :
    (main sampleEnv "getrusage" ["-a", "sleep", "1"]).outcome = .exit EXIT_SUCCESS
      ∧ (main (sampleEnv.withStatus 9) "getrusage" ["-a", "sleep", "1"]).outcome
        = .exit EXIT_SUCCESS
      ∧ (main sampleEnv "getrusage" ["sleep", "1"]).outcome = .exit EXIT_FAILURE :=
  ⟨(parent_exit_code sampleEnv "getrusage" ["-a", "sleep", "1"]).2.2.1 (by decide) (by decide),
   ((parent_exit_code sampleEnv "getrusage" ["-a", "sleep", "1"]).2.2.2.2.1 9).trans
     (by decide),
   (parent_exit_code sampleEnv "getrusage" ["sleep", "1"]).2.2.2.2.2.1
     (Or.inr (Or.inr ⟨_, rfl, rfl⟩))⟩

/-- C9: in the parent of an accepted invocation whose `wait` returns -1 (host lookup,
time stamps and `fork` having succeeded): (1) with `errno == ECHILD` and a command
present, the run is `fork`, one `wait`, the message `message_prefix wait: ...` on
`std::clog`, the status report line, `getrusage`, and then, when `getrusage` succeeds,
one metric line for every requested metric and the return of `EXIT_SUCCESS`; `wait` is
called once; (2) with any other `errno`, the run is `fork`, `wait`, the same message on
`std::cerr` and `exit (EXIT_FAILURE)`: no status line and no metric line. -/
theorem wait_failure_handling (env : Env) (argv0 : String) (args : List String) (o : Options)
    (hh : env.gethostname.ret ≠ -1) (hs : scanOptions 1 args Options.init = some o)
    (hn : o.n_options ≠ 0) (ht : o.t = true → env.tstart.ret ≠ -1 ∧ env.tstop.ret ≠ -1)
    (hf1 : env.fork.ret ≠ -1) (hf0 : env.fork.ret ≠ 0) (hw : env.wait.ret = -1) :
    (env.wait.errno = ECHILD → ∀ i, o.i_exec = some i →
        (main env argv0 args).trace.count Event.wait = 1
          ∧ (env.getrusage.ret ≠ -1 →
              main env argv0 args =
                { trace :=
                    [.fork, .wait,
                     .clog ( message_prefix argv0 env.getpid env.gethostname.out ++ "wait: "
                            ++ env.strerror ECHILD ++ "."),
                     .clog (statusLine env.macros env.strsignal argv0
                            ((argv0 :: args).getD i "") env.fork.ret env.gethostname.out
                            env.wait.out),
                     .getrusage]
                    ++ (metricLines env.platform o env.getrusage.out env.tstart.out
                          env.tstop.out).map Event.metric,
                  outcome := .exit EXIT_SUCCESS }
              ∧ (metricsOf (main env argv0 args).trace).map MetricLine.token
                  = metricOrder.filter (fun tok => requested tok args))
          ∧ (env.getrusage.ret = -1 →
              main env argv0 args =
                { trace :=
                    [.fork, .wait,
                     .clog ( message_prefix argv0 env.getpid env.gethostname.out ++ "wait: "
                            ++ env.strerror ECHILD ++ "."),
                     .clog (statusLine env.macros env.strsignal argv0
                            ((argv0 :: args).getD i "") env.fork.ret env.gethostname.out
                            env.wait.out),
                     .getrusage,
                     .cerr ( message_prefix argv0 env.getpid env.gethostname.out
                            ++ "getrusage: " ++ env.strerror env.getrusage.errno ++ ".")],
                  outcome := .exit EXIT_FAILURE }))
      ∧ (env.wait.errno ≠ ECHILD →
          main env argv0 args =
            { trace :=
                [.fork, .wait,
                 .cerr ( message_prefix argv0 env.getpid env.gethostname.out ++ "wait: "
                        ++ env.strerror env.wait.errno ++ ".")],
              outcome := .exit EXIT_FAILURE }) := by
  have hm := main_accepted env argv0 args o hh hs hn
  rw [launch_parent env _ o _ _ (fun h => (ht h).1) hf1 hf0] at hm
  have hpw := parent_wait_failed env (argv0 :: args) o env.fork.ret env.gethostname.out
    ( message_prefix argv0 env.getpid env.gethostname.out) (fun h => (ht h).2) hw
  constructor
  · intro he i hi
    rw [hpw.1 he] at hm
    have hok : env.getrusage.ret ≠ -1 →
        main env argv0 args =
          { trace :=
              [.fork, .wait,
               .clog ( message_prefix argv0 env.getpid env.gethostname.out ++ "wait: "
                      ++ env.strerror ECHILD ++ "."),
               .clog (statusLine env.macros env.strsignal argv0
                      ((argv0 :: args).getD i "") env.fork.ret env.gethostname.out
                      env.wait.out),
               .getrusage]
              ++ (metricLines env.platform o env.getrusage.out env.tstart.out
                    env.tstop.out).map Event.metric,
            outcome := .exit EXIT_SUCCESS } := by
      intro hg
      rw [hm, report_ok env _ o _ _ _ i hi hg]
      rfl
    have hbad : env.getrusage.ret = -1 →
        main env argv0 args =
          { trace :=
              [.fork, .wait,
               .clog ( message_prefix argv0 env.getpid env.gethostname.out ++ "wait: "
                      ++ env.strerror ECHILD ++ "."),
               .clog (statusLine env.macros env.strsignal argv0
                      ((argv0 :: args).getD i "") env.fork.ret env.gethostname.out
                      env.wait.out),
               .getrusage,
               .cerr ( message_prefix argv0 env.getpid env.gethostname.out
                      ++ "getrusage: " ++ env.strerror env.getrusage.errno ++ ".")],
            outcome := .exit EXIT_FAILURE } := by
      intro hg
      rw [hm, report_failed env _ o _ _ _ i hi hg]
      rfl
    refine ⟨?_, ?_, hbad⟩
    · by_cases hg : env.getrusage.ret = -1
      · rw [hbad hg]
        simp [List.count_cons]
      · rw [hok hg]
        simp [List.count_cons, count_wait_metrics]
    · intro hg
      refine ⟨hok hg, ?_⟩
      rw [hok hg]
      have ho := scanOptions_eq_scanned 1 args Options.init o hs
      subst ho
      have hmo : ∀ (l : List MetricLine) (a b : String),
          metricsOf ([.fork, .wait, .clog a, .clog b, .getrusage] ++ l.map Event.metric) = l :=
        fun l a b => metricsOf_map_metric l
      rw [hmo]
      exact scanned_tokens _ _ _ _ _
  · intro he
    rw [hm, hpw.2 he]

/-- Witness of C9: `-cs sleep 1` when `wait` fails with `ECHILD`, and when it fails with
another error. -/
theorem wait_failure_handling_witness :
    (main sampleNoChildEnv "getrusage" ["-cs", "sleep", "1"]).trace.count Event.wait = 1
      ∧ main sampleNoChildEnv "getrusage" ["-cs", "sleep", "1"] =
          { trace :=
              [.fork, .wait,
               .clog "getrusage (PID 4711 on host node1): wait: No child processes.",
               .clog "getrusage: sleep (PID 4712 on host node1):  exited with status 0.",
               .getrusage, .metric (.cs 5 6)],
            outcome := .exit EXIT_SUCCESS }
      ∧ main sampleWaitErrorEnv "getrusage" ["-cs", "sleep", "1"] =
          { trace :=
              [.fork, .wait,
               .cerr "getrusage (PID 4711 on host node1): wait: Input/output error."],
            outcome := .exit EXIT_FAILURE } :=
  ⟨((wait_failure_handling sampleNoChildEnv "getrusage" ["-cs", "sleep", "1"]
        { cs := true, io := false, pf := false, rss := false, t := false,
          n_options := 1, i_exec := some 2 }
        (by decide) (by decide) (by decide) (by decide) (by decide) (by decide) (by decide)).1
      (by decide) 2 rfl).1,
   ((((wait_failure_handling sampleNoChildEnv "getrusage" ["-cs", "sleep", "1"]
        { cs := true, io := false, pf := false, rss := false, t := false,
          n_options := 1, i_exec := some 2 }
        (by decide) (by decide) (by decide) (by decide) (by decide) (by decide) (by decide)).1
      (by decide) 2 rfl).2.1 (by decide)).1).trans (by decide),
   ((wait_failure_handling sampleWaitErrorEnv "getrusage" ["-cs", "sleep", "1"]
        { cs := true, io := false, pf := false, rss := false, t := false,
          n_options := 1, i_exec := some 2 }
        (by decide) (by decide) (by decide) (by decide) (by decide) (by decide) (by decide)).2
      (by decide)).trans (by decide)⟩

/-- C10: for time stamps `tstart` and `tstop` with microsecond fields in `[0, 1000000)`
and `tstop` not earlier than `tstart`, the value `real` of the time line, computed in
exact rational arithmetic, is `(sec1 + usec1 / 1000000) - (sec0 + usec0 / 1000000)`,
that is, the difference of the two time stamps counted in whole microseconds, and it is
not negative.  In the run of `main`: when `gettimeofday` stores `tstart` at line 120 and
`tstop` at line 160, `-t` is requested in an accepted invocation with a command, and the
host lookup, `fork` (in the parent) and `getrusage` succeed, `wait` succeeding or failing
with `ECHILD`, the trace holds the time line with exactly this value as real time (next
to the user and system times of `ru`), `main` writes no time line with another real
time, and the reported value is that non-negative difference. -/
theorem real_time_is_elapsed (tstart tstop : Timeval)
    (hu0 : 0 ≤ tstart.tv_usec ∧ tstart.tv_usec < 1000000)
    (hu1 : 0 ≤ tstop.tv_usec ∧ tstop.tv_usec < 1000000)
    (hle : tstart.tv_sec < tstop.tv_sec
      ∨ (tstart.tv_sec = tstop.tv_sec ∧ tstart.tv_usec ≤ tstop.tv_usec)) :
    realTime tstart tstop
        = ((tstop.tv_sec : ℚ) + (tstop.tv_usec : ℚ) / 1000000)
          - ((tstart.tv_sec : ℚ) + (tstart.tv_usec : ℚ) / 1000000)
      ∧ realTime tstart tstop * 1000000
        = (((tstop.tv_sec * 1000000 + tstop.tv_usec)
            - (tstart.tv_sec * 1000000 + tstart.tv_usec) : Int) : ℚ)
      ∧ 0 ≤ realTime tstart tstop
      ∧ (∀ (p : Platform) (o : Options) (ru : Rusage), o.t = true →
          MetricLine.t (realTime tstart tstop) (seconds ru.ru_utime) (seconds ru.ru_stime)
            ∈ metricLines p o ru tstart tstop)
      ∧ (∀ (env : Env) (argv0 : String) (args : List String) (o : Options) (i : Nat),
          env.tstart.out = tstart → env.tstop.out = tstop →
          env.gethostname.ret ≠ -1 → scanOptions 1 args Options.init = some o →
          o.n_options ≠ 0 → o.i_exec = some i → o.t = true →
          env.tstart.ret ≠ -1 → env.tstop.ret ≠ -1 →
          env.fork.ret ≠ -1 → env.fork.ret ≠ 0 →
          (env.wait.ret = -1 → env.wait.errno = ECHILD) → env.getrusage.ret ≠ -1 →
            Event.metric
                (.t (((tstop.tv_sec : ℚ) + (tstop.tv_usec : ℚ) / 1000000)
                      - ((tstart.tv_sec : ℚ) + (tstart.tv_usec : ℚ) / 1000000))
                    (seconds env.getrusage.out.ru_utime) (seconds env.getrusage.out.ru_stime))
              ∈ (main env argv0 args).trace
            ∧ (∀ r u s : ℚ, Event.metric (.t r u s) ∈ (main env argv0 args).trace →
                r = ((tstop.tv_sec : ℚ) + (tstop.tv_usec : ℚ) / 1000000)
                      - ((tstart.tv_sec : ℚ) + (tstart.tv_usec : ℚ) / 1000000)
                  ∧ 0 ≤ r)) := by
  have hmicro : realTime tstart tstop * 1000000
      = (((tstop.tv_sec * 1000000 + tstop.tv_usec)
          - (tstart.tv_sec * 1000000 + tstart.tv_usec) : Int) : ℚ) := by
    unfold realTime seconds
    push_cast
    ring
  have hdiff : (0 : Int) ≤ (tstop.tv_sec * 1000000 + tstop.tv_usec)
      - (tstart.tv_sec * 1000000 + tstart.tv_usec) := by
    obtain ⟨h00, h01⟩ := hu0
    obtain ⟨h10, h11⟩ := hu1
    rcases hle with h | ⟨h, h2⟩ <;> omega
  have hform : realTime tstart tstop
      = ((tstop.tv_sec : ℚ) + (tstop.tv_usec : ℚ) / 1000000)
        - ((tstart.tv_sec : ℚ) + (tstart.tv_usec : ℚ) / 1000000) := by
    unfold realTime seconds
    ring
  have hnonneg : 0 ≤ realTime tstart tstop := by
    have hq : (0 : ℚ) ≤ realTime tstart tstop * 1000000 := by
      rw [hmicro]
      exact_mod_cast hdiff
    linarith
  refine ⟨hform, hmicro, hnonneg, ?_, ?_⟩
  · intro p o ru ht
    simp [metricLines, ht]
  · intro env argv0 args o i h0 h1 hh hs hn hi ht hts htp hf1 hf0 hw hg
    have hm := metricsOf_main_completed env argv0 args o i hh hs hn hi
      (fun _ => ⟨hts, htp⟩) hf1 hf0 hw hg
    rw [h0, h1] at hm
    constructor
    · rw [← hform, ← mem_metricsOf, hm]
      simp [metricLines, ht]
    · intro r u s hmem
      rw [← mem_metricsOf, hm] at hmem
      obtain ⟨_, hr, _, _⟩ := time_line_of_metricLines _ _ _ _ _ _ _ _ hmem
      rw [← hform, hr]
      exact ⟨rfl, hnonneg⟩

/-- Witness of C10: in the sample run of `-t sleep 1` the time stamps are 10.500000 s
and 12.250000 s, and the time line of the trace reports the real time 1.75 s, next to
1 s of user time and 0.5 s of system time. -/
theorem real_time_is_elapsed_witness :
    realTime sampleEnv.tstart.out sampleEnv.tstop.out = 7 / 4
      ∧ 0 ≤ realTime sampleEnv.tstart.out sampleEnv.tstop.out
      ∧ Event.metric (.t (7 / 4) 1 (1 / 2))
          ∈ (main sampleEnv "getrusage" ["-t", "sleep", "1"]).trace
      ∧ (∀ r u s : ℚ,
          Event.metric (.t r u s) ∈ (main sampleEnv "getrusage" ["-t", "sleep", "1"]).trace →
            r = 7 / 4 ∧ 0 ≤ r) := by
  have h := real_time_is_elapsed sampleEnv.tstart.out sampleEnv.tstop.out
    (by decide) (by decide) (by decide)
  have hrun := h.2.2.2.2 sampleEnv "getrusage" ["-t", "sleep", "1"]
    { cs := false, io := false, pf := false, rss := false, t := true,
      n_options := 1, i_exec := some 2 }
    2 rfl rfl (by decide) (by decide) (by decide) rfl rfl (by decide) (by decide)
    (by decide) (by decide) (by decide) (by decide)
  have e1 : ((sampleEnv.tstop.out.tv_sec : ℚ) + (sampleEnv.tstop.out.tv_usec : ℚ) / 1000000)
      - ((sampleEnv.tstart.out.tv_sec : ℚ) + (sampleEnv.tstart.out.tv_usec : ℚ) / 1000000)
      = 7 / 4 := by
    norm_num [sampleEnv]
  have e2 : seconds sampleEnv.getrusage.out.ru_utime = 1 := by
    norm_num [seconds, sampleEnv]
  have e3 : seconds sampleEnv.getrusage.out.ru_stime = 1 / 2 := by
    norm_num [seconds, sampleEnv]
  rw [e1, e2, e3] at hrun
  exact ⟨by norm_num [realTime, seconds, sampleEnv], h.2.2.1, hrun.1, hrun.2⟩

end Getrusage
